import Mathlib

/-!
Verification of the ukgovcomms incremental blog crawler.

This file gives a shallow embedding, in Lean 4, of the crawler logic found in
tools/fetch_blogs_from_db.py and tools/legacy/crawl_blog.py, and proves (or
refutes) the behavioural claims made about it.

Modelling conventions:
- The BlogPost table is a list of (url, row) pairs; the SQL UNIQUE key on url
  is expressed by the storageWF predicate (no duplicate keys).
- Timestamps (NOW(), created_at, updated_at) are modelled as an explicit
  "now" value of type Nat passed in; created_at/updated_at columns are not
  part of the Row model since no claim mentions them.
- HTTP is modelled by a function from the attempt number (1-based) to the
  status code returned for that request; sleeping is modelled by recording
  the requested sleep durations in a list.
- HTML pages (BeautifulSoup objects) are modelled by small structures holding
  the results of the CSS-selector queries the Python code performs; the
  selector engine itself (BeautifulSoup) is an external library and is
  treated as an oracle supplying those results.
-/

/-! ## Storage model: the BlogPost table and upsert_post -/

abbrev Url := String

/-- One row of the BlogPost table, keyed externally by its unique url.
Columns created_at/updated_at are omitted (pure timestamps, touched on every
write, never read by the crawler). -/
structure Row where
  blogName : String
  title : Option String
  publishedAt : Option String
  previousUrl : Option Url
  nextUrl : Option Url
deriving DecidableEq

/-- The BlogPost table: an association list from url to row. -/
abbrev Storage := List (Url × Row)

def storageKeys (st : Storage) : List Url := st.map Prod.fst

/-- Well-formedness: the SQL UNIQUE constraint on BlogPost.url. -/
def storageWF (st : Storage) : Prop := (storageKeys st).Nodup

/-- Existence check, as in crawl_blog's
SELECT 1 FROM BlogPost WHERE url=%s LIMIT 1. -/
def existsPost (st : Storage) (u : Url) : Bool := (storageKeys st).contains u

def lookupPost (st : Storage) (u : Url) : Option Row :=
  (st.find? (fun p => p.1 == u)).map Prod.snd

/-- Effect of the ON DUPLICATE KEY UPDATE branch of upsert_post on an
existing row: title, published_at, previous_url, next_url are replaced by the
incoming values (including NULL); blog_name is not in the UPDATE list and is
kept. -/
def upsertRowOf (old : Row) (title publishedAt : Option String)
    (prevUrl nextUrl : Option Url) : Row :=
  { old with title := title, publishedAt := publishedAt,
             previousUrl := prevUrl, nextUrl := nextUrl }

/-- Embedding of upsert_post (tools/fetch_blogs_from_db.py):
INSERT ... ON DUPLICATE KEY UPDATE title=VALUES(title),
published_at=VALUES(published_at), previous_url=VALUES(previous_url),
next_url=VALUES(next_url). A fresh url appends a new row; an existing url
has its four value columns overwritten in place. -/
def upsert_post (st : Storage) (blogName : String) (url : Url)
    (title publishedAt : Option String) (prevUrl nextUrl : Option Url) : Storage :=
  if existsPost st url then
    st.map (fun p =>
      if p.1 == url then (url, upsertRowOf p.2 title publishedAt prevUrl nextUrl) else p)
  else
    st ++ [(url, ⟨blogName, title, publishedAt, prevUrl, nextUrl⟩)]

lemma storageKeys_append (a b : Storage) :
    storageKeys (a ++ b) = storageKeys a ++ storageKeys b := by
  simp [storageKeys]

lemma existsPost_iff_mem (st : Storage) (u : Url) :
    existsPost st u = true ↔ u ∈ storageKeys st := by
  simp [existsPost, List.elem_iff]

lemma storageKeys_upsert (st : Storage) (n : String) (u : Url)
    (t d : Option String) (p nx : Option Url) :
    storageKeys (upsert_post st n u t d p nx)
      = if existsPost st u then storageKeys st else storageKeys st ++ [u] := by
  unfold upsert_post
  split
  · simp only [storageKeys, List.map_map]
    apply List.map_congr_left
    intro a _
    by_cases h : a.1 == u
    · simp only [Function.comp, h, if_pos]
      exact (eq_of_beq h).symm
    · simp [Function.comp, h]
  · simp [storageKeys]

lemma mem_storageKeys_upsert (st : Storage) (n : String) (u : Url)
    (t d : Option String) (p nx : Option Url) (w : Url) :
    w ∈ storageKeys (upsert_post st n u t d p nx)
      ↔ (w ∈ storageKeys st ∨ w = u) := by
  rw [storageKeys_upsert]
  by_cases hu : existsPost st u
  · rw [if_pos hu]
    constructor
    · exact fun h => Or.inl h
    · rintro (h | h)
      · exact h
      · subst h
        exact (existsPost_iff_mem st w).1 hu
  · rw [if_neg hu]
    simp [List.mem_append]

lemma existsPost_upsert (st : Storage) (n : String) (u : Url)
    (t d : Option String) (p nx : Option Url) (w : Url) :
    existsPost (upsert_post st n u t d p nx) w
      = (existsPost st w || w == u) := by
  rw [Bool.eq_iff_iff, existsPost_iff_mem, mem_storageKeys_upsert]
  simp [existsPost_iff_mem, beq_iff_eq]

lemma storageWF_upsert (st : Storage) (n : String) (u : Url)
    (t d : Option String) (p nx : Option Url) (h : storageWF st) :
    storageWF (upsert_post st n u t d p nx) := by
  unfold storageWF
  rw [storageKeys_upsert]
  split
  · exact h
  · rename_i hne
    rw [List.nodup_append]
    refine ⟨h, List.nodup_singleton u, ?_⟩
    intro a ha hb
    simp only [List.mem_singleton] at hb
    subst hb
    exact hne ((existsPost_iff_mem st a).2 ha)

lemma lookupPost_isSome_iff (st : Storage) (u : Url) :
    (lookupPost st u).isSome = existsPost st u := by
  rw [Bool.eq_iff_iff, existsPost_iff_mem]
  induction st with
  | nil => simp [lookupPost, storageKeys]
  | cons hd tl ih =>
    by_cases h : hd.1 == u
    · simp [lookupPost, List.find?, h, storageKeys, eq_of_beq h]
    · have h' : u ≠ hd.1 := fun hc => h (by simp [hc])
      simp only [lookupPost, List.find?, h, storageKeys, List.map,
        List.mem_cons]
      rw [← storageKeys]
      constructor
      · intro hs
        exact Or.inr (ih.1 (by simpa [lookupPost] using hs))
      · rintro (hc | hc)
        · exact absurd hc h'
        · simpa [lookupPost] using ih.2 hc

lemma find?_map_updFn (st : Storage) (u : Url)
    (t d : Option String) (p nx : Option Url) (w : Url) (hw : w ≠ u) :
    (st.map (fun q =>
        if q.1 == u then (u, upsertRowOf q.2 t d p nx) else q)).find?
          (fun q => q.1 == w)
      = st.find? (fun q => q.1 == w) := by
  induction st with
  | nil => simp
  | cons hd tl ih =>
    by_cases h : hd.1 == u
    · have h1 : ((u : String) == w) = false :=
        beq_eq_false_iff_ne.2 (fun hc => hw hc.symm)
      have h2 : (hd.1 == w) = false :=
        beq_eq_false_iff_ne.2 (fun hc => hw (by rw [← hc, eq_of_beq h]))
      simp only [List.map, h, if_pos, List.find?, h1, h2]
      exact ih
    · by_cases h2 : hd.1 == w
      · simp [List.map, h, List.find?, h2]
      · simp only [List.map, h, if_neg, List.find?, h2, Bool.false_eq_true,
          not_false_iff]
        exact ih

lemma find?_append_singleton_ne (st : Storage) (u w : Url) (r : Row)
    (hw : w ≠ u) :
    (st ++ [(u, r)]).find? (fun q => q.1 == w)
      = st.find? (fun q => q.1 == w) := by
  induction st with
  | nil =>
    have h1 : ((u : String) == w) = false :=
      beq_eq_false_iff_ne.2 (fun hc => hw hc.symm)
    simp [List.find?, h1]
  | cons hd tl ih =>
    by_cases h2 : hd.1 == w
    · simp [List.find?, h2]
    · simp only [List.cons_append, List.find?, h2]
      exact ih

lemma lookupPost_upsert_ne (st : Storage) (n : String) (u : Url)
    (t d : Option String) (p nx : Option Url) (w : Url) (hw : w ≠ u) :
    lookupPost (upsert_post st n u t d p nx) w = lookupPost st w := by
  unfold upsert_post
  split
  · unfold lookupPost
    rw [find?_map_updFn st u t d p nx w hw]
  · unfold lookupPost
    rw [find?_append_singleton_ne st u w _ hw]

lemma lookupPost_upsert_self (st : Storage) (n : String) (u : Url)
    (t d : Option String) (p nx : Option Url) :
    lookupPost (upsert_post st n u t d p nx) u
      = some (match lookupPost st u with
              | some r => upsertRowOf r t d p nx
              | none => ⟨n, t, d, p, nx⟩) := by
  induction st with
  | nil => simp [upsert_post, existsPost, storageKeys, lookupPost, List.find?]
  | cons hd tl ih =>
    by_cases h : hd.1 == u
    · have hex : existsPost (hd :: tl) u = true := by
        rw [existsPost_iff_mem]
        simp [storageKeys, eq_of_beq h]
      simp only [upsert_post, hex, if_pos, List.map]
      simp [lookupPost, List.find?, h]
    · have hx : existsPost (hd :: tl) u = existsPost tl u := by
        rw [Bool.eq_iff_iff, existsPost_iff_mem, existsPost_iff_mem]
        have h' : u ≠ hd.1 := fun hc => h (by simp [hc])
        simp [storageKeys, h']
      have hlk : lookupPost (hd :: tl) u = lookupPost tl u := by
        simp [lookupPost, List.find?, h]
      rw [hlk]
      unfold upsert_post at ih ⊢
      rw [hx]
      by_cases hex : existsPost tl u
      · rw [if_pos hex]
        rw [if_pos hex] at ih
        simp only [List.map, h, if_neg, Bool.false_eq_true, not_false_iff]
        simpa [lookupPost, List.find?, h] using ih
      · rw [if_neg hex]
        rw [if_neg hex] at ih
        simp only [List.cons_append]
        simpa [lookupPost, List.find?, h] using ih

lemma map_updFn_id (st : Storage) (u : Url)
    (t d : Option String) (p nx : Option Url)
    (hnot : u ∉ storageKeys st) :
    st.map (fun q =>
      if q.1 == u then (u, upsertRowOf q.2 t d p nx) else q) = st := by
  induction st with
  | nil => simp
  | cons hd tl ih =>
    simp only [storageKeys, List.map, List.mem_cons] at hnot
    push_neg at hnot
    have h1 : (hd.1 == u) = false :=
      beq_eq_false_iff_ne.2 (fun hc => hnot.1 hc.symm)
    simp only [List.map, h1, Bool.false_eq_true, if_false]
    rw [ih (by simpa [storageKeys] using hnot.2)]

/-- If the stored row under u already carries exactly the incoming values,
upsert_post is the identity on the table (needs the UNIQUE key invariant). -/
lemma upsert_post_eq_self (st : Storage) (n : String) (u : Url)
    (t d : Option String) (p nx : Option Url) (r : Row)
    (hwf : storageWF st)
    (hlk : lookupPost st u = some r)
    (ht : r.title = t) (hd0 : r.publishedAt = d)
    (hp : r.previousUrl = p) (hnx : r.nextUrl = nx) :
    upsert_post st n u t d p nx = st := by
  have hex : existsPost st u = true := by
    rw [← lookupPost_isSome_iff, hlk]
    rfl
  unfold upsert_post
  rw [if_pos hex]
  clear hex
  induction st with
  | nil => simp [lookupPost] at hlk
  | cons hd' tl ih =>
    by_cases h : hd'.1 == u
    · have hrow : hd'.2 = r := by
        simpa [lookupPost, List.find?, h] using hlk
      have hkey : hd'.1 = u := eq_of_beq h
      have htl : u ∉ storageKeys tl := by
        have hwf' := hwf
        unfold storageWF at hwf'
        simp only [storageKeys, List.map, List.nodup_cons] at hwf'
        rw [hkey] at hwf'
        exact fun hc => hwf'.1 (by simpa [storageKeys] using hc)
      simp only [List.map, h, if_pos]
      rw [map_updFn_id tl u t d p nx htl]
      have hre : upsertRowOf hd'.2 t d p nx = hd'.2 := by
        rw [hrow]
        unfold upsertRowOf
        cases r
        simp only at ht hd0 hp hnx
        simp [ht, hd0, hp, hnx]
      rw [hre, ← hkey]
    · have hwf' : storageWF tl := by
        unfold storageWF at hwf ⊢
        simp only [storageKeys, List.map, List.nodup_cons] at hwf
        exact hwf.2
      have hlk' : lookupPost tl u = some r := by
        simpa [lookupPost, List.find?, h] using hlk
      simp only [List.map, h, Bool.false_eq_true, if_false]
      rw [ih hwf' hlk']

/-! ## Date parsing and extraction (extract_published_at) -/

/-- A time element on the page: its optional datetime attribute and its text
content. -/
structure TimeTag where
  datetimeAttr : Option String
  text : String
deriving DecidableEq

/-- The selector results of a post page that extract_published_at queries:
the content attribute of meta[property='article:published_time'], the content
attribute of meta[name='pubdate'], and all time elements in document order.
DATE_META_SELECTORS in tools/fetch_blogs_from_db.py contains exactly these
two meta selectors plus time[datetime]; there is no datePublished selector,
and the function receives no URL. -/
structure DateSoup where
  metaArticlePublishedTime : Option String
  metaPubdate : Option String
  timeTags : List TimeTag
deriving DecidableEq

/-- Python truthiness of an optional string attribute: present and
non-empty. -/
def truthy (o : Option String) : Option String :=
  o.bind (fun s => if s.isEmpty then none else some s)

def twoDigitVal (a b : Char) : Nat := (a.toNat - 48) * 10 + (b.toNat - 48)

/-- Shape check for a zero-padded ISO calendar date YYYY-MM-DD with a valid
month and day range (as accepted by strptime with format %Y-%m-%d). -/
def dateShaped (cs : List Char) : Bool :=
  match cs with
  | [y1, y2, y3, y4, h1, m1, m2, h2, d1, d2] =>
    y1.isDigit && y2.isDigit && y3.isDigit && y4.isDigit &&
    h1 == '-' && m1.isDigit && m2.isDigit && h2 == '-' &&
    d1.isDigit && d2.isDigit &&
    decide (1 ≤ twoDigitVal m1 m2) && decide (twoDigitVal m1 m2 ≤ 12) &&
    decide (1 ≤ twoDigitVal d1 d2) && decide (twoDigitVal d1 d2 ≤ 31)
  | _ => false

/-- Whitespace set of Python str.strip (the common ASCII part). -/
def isStripSpace (c : Char) : Bool :=
  c == ' ' || c == '\t' || c == '\n' || c == '\r'

def stripChars (cs : List Char) : List Char :=
  ((cs.dropWhile isStripSpace).reverse.dropWhile isStripSpace).reverse

/-- Embedding of parse_date_str (tools/fetch_blogs_from_db.py). Every format
in its strptime list, and the re.match fallback on a leading
digit-4 dash digit-2 dash digit-2 group, requires the stripped input to start
with a zero-padded calendar date; the function yields that parsed date (a
datetime whose calendar-date part is those 10 characters). The model returns
the leading 10-character date; inputs with no valid leading date yield
none. -/
def parse_date_str (s : String) : Option String :=
  let cs := stripChars s.toList
  let d10 := cs.take 10
  if dateShaped d10 then some (String.mk d10) else none

/-- The attribute values examined by the DATE_META_SELECTORS loop of
extract_published_at, in source order: article:published_time content,
pubdate content, then the datetime attribute of the first time element that
carries one (select_one of time[datetime]). -/
def dateMetaSelectorHits (soup : DateSoup) : List (Option String) :=
  [truthy soup.metaArticlePublishedTime,
   truthy soup.metaPubdate,
   (soup.timeTags.find? (fun t => t.datetimeAttr.isSome)).bind
     (fun t => truthy t.datetimeAttr)]

/-- Embedding of extract_published_at (tools/fetch_blogs_from_db.py): first
the DATE_META_SELECTORS loop (meta tags before time[datetime]; a selector
whose attribute fails to parse is skipped), then a loop over every time
element trying its datetime attribute or, when that is falsy, its text.
There is no fallback based on the post URL: the URL is not an input. -/
def extract_published_at (soup : DateSoup) : Option String :=
  match (dateMetaSelectorHits soup).findSome? (fun o => o.bind parse_date_str) with
  | some dt => some dt
  | none =>
    soup.timeTags.findSome?
      (fun t => parse_date_str ((truthy t.datetimeAttr).getD t.text))

/-! ## Claim C3: upsert idempotence and null handling -/

/-- Sample stored row used in concrete scenarios. -/
def sampleUrl : Url := "https://gds.blog.gov.uk/2024/01/10/hello/"

def sampleRow : Row :=
  ⟨"GDS blog", some "Hello", some "2024-01-10", none, none⟩

/-- Counterexample to claim C3: the BlogPost table holds a row for a URL with
a non-null title and published_at; a second upsert of the same URL carrying
null title and null published_at overwrites both stored values with null,
because ON DUPLICATE KEY UPDATE sets title=VALUES(title) and
published_at=VALUES(published_at) unconditionally. The claim says the stored
non-null values are kept. -/
theorem upsert_null_clobbers_stored_values :
    lookupPost
      (upsert_post [(sampleUrl, sampleRow)] "GDS blog" sampleUrl
        none none none none) sampleUrl
      = some ⟨"GDS blog", none, none, none, none⟩ := by
  decide

/-- Claim C3 (amended): upserting the same URL with the same values twice
yields the same table as upserting it once, and no duplicate row is created
for an existing URL (the row count for that URL is exactly one). However the
update is plain last-write-wins on every value column: the second upsert's
title/published_at/previous_url/next_url replace the stored ones even when
the incoming value is null (only blog_name is kept on duplicate). -/
theorem upsert_post_idempotent_and_last_write_wins
    (st : Storage) (n : String) (u : Url)
    (t d : Option String) (p nx : Option Url)
    (hwf : storageWF st) :
    upsert_post (upsert_post st n u t d p nx) n u t d p nx
        = upsert_post st n u t d p nx
    ∧ (storageKeys (upsert_post st n u t d p nx)).count u = 1
    ∧ (∀ r, lookupPost st u = some r →
        lookupPost (upsert_post st n u t d p nx) u
          = some (upsertRowOf r t d p nx)) := by
  refine ⟨?_, ?_, ?_⟩
  · have hlk := lookupPost_upsert_self st n u t d p nx
    have hwf' := storageWF_upsert st n u t d p nx hwf
    cases hval : lookupPost st u with
    | some r =>
      rw [hval] at hlk
      exact upsert_post_eq_self _ n u t d p nx _ hwf' hlk rfl rfl rfl rfl
    | none =>
      rw [hval] at hlk
      exact upsert_post_eq_self _ n u t d p nx _ hwf' hlk rfl rfl rfl rfl
  · have hwf' := storageWF_upsert st n u t d p nx hwf
    have hm : u ∈ storageKeys (upsert_post st n u t d p nx) :=
      (mem_storageKeys_upsert st n u t d p nx u).2 (Or.inr rfl)
    exact List.count_eq_one_of_mem hwf' hm
  · intro r hr
    have hlk := lookupPost_upsert_self st n u t d p nx
    rw [hr] at hlk
    exact hlk

/-- Witness for the amended C3 theorem at a concrete input: one stored row,
well-formed table. -/
theorem upsert_post_idempotent_witness :
    upsert_post (upsert_post [(sampleUrl, sampleRow)] "GDS blog" sampleUrl
        (some "Hello2") none none none) "GDS blog" sampleUrl
        (some "Hello2") none none none
      = upsert_post [(sampleUrl, sampleRow)] "GDS blog" sampleUrl
          (some "Hello2") none none none :=
  (upsert_post_idempotent_and_last_write_wins
    [(sampleUrl, sampleRow)] "GDS blog" sampleUrl
    (some "Hello2") none none none
    (by unfold storageWF storageKeys; decide)).1

/-! ## Claim C4: published-date strategy order -/

/-- Counterexample to claim C4, in two parts, against extract_published_at of
tools/fetch_blogs_from_db.py. First: a page carrying both a time element with
datetime 2022-01-01 and an article:published_time meta of 2023-02-02 yields
the meta date, because DATE_META_SELECTORS lists the meta selectors before
time[datetime]; the claim says the time attribute is tried first and would
yield 2022-01-01. Second: a page with no time element and no meta tags yields
none; the claim says a /YYYY/MM/DD/ substring of the post URL is used as a
last resort, but the function takes no URL at all and has no such fallback. -/
theorem extract_published_at_meta_beats_time_and_no_url_fallback :
    extract_published_at
        ⟨some "2023-02-02T00:00:00", none, [⟨some "2022-01-01T00:00:00", ""⟩]⟩
      = some "2023-02-02"
    ∧ extract_published_at ⟨none, none, []⟩ = none := by
  constructor
  · decide
  · decide

/-- Claim C4 (amended): published-date extraction in
tools/fetch_blogs_from_db.py tries, in order, the article:published_time
meta content, then the pubdate meta content, then the datetime attribute of
the first time element carrying one, then every time element's datetime
attribute or text; the first successful parse wins, and when every strategy
fails the result is null. There is no datePublished strategy and no fallback
to a /YYYY/MM/DD/ substring of the post URL (the URL is not an input), so a
page with no date markup yields null regardless of its URL. -/
theorem extract_published_at_strategy_order (soup : DateSoup) :
    (∀ d, (truthy soup.metaArticlePublishedTime).bind parse_date_str = some d →
        extract_published_at soup = some d)
    ∧ (∀ d, (truthy soup.metaArticlePublishedTime).bind parse_date_str = none →
        (truthy soup.metaPubdate).bind parse_date_str = some d →
        extract_published_at soup = some d)
    ∧ (∀ d, (truthy soup.metaArticlePublishedTime).bind parse_date_str = none →
        (truthy soup.metaPubdate).bind parse_date_str = none →
        ((soup.timeTags.find? (fun t => t.datetimeAttr.isSome)).bind
          (fun t => truthy t.datetimeAttr)).bind parse_date_str = some d →
        extract_published_at soup = some d)
    ∧ ((truthy soup.metaArticlePublishedTime).bind parse_date_str = none →
        (truthy soup.metaPubdate).bind parse_date_str = none →
        ((soup.timeTags.find? (fun t => t.datetimeAttr.isSome)).bind
          (fun t => truthy t.datetimeAttr)).bind parse_date_str = none →
        extract_published_at soup
          = soup.timeTags.findSome?
              (fun t => parse_date_str ((truthy t.datetimeAttr).getD t.text)))
    ∧ (soup.timeTags = [] →
        (truthy soup.metaArticlePublishedTime).bind parse_date_str = none →
        (truthy soup.metaPubdate).bind parse_date_str = none →
        extract_published_at soup = none) := by
  refine ⟨?_, ?_, ?_, ?_, ?_⟩
  · intro d h1
    simp [extract_published_at, dateMetaSelectorHits, List.findSome?, h1]
  · intro d h1 h2
    simp [extract_published_at, dateMetaSelectorHits, List.findSome?, h1, h2]
  · intro d h1 h2 h3
    simp [extract_published_at, dateMetaSelectorHits, List.findSome?, h1, h2, h3]
  · intro h1 h2 h3
    simp [extract_published_at, dateMetaSelectorHits, List.findSome?, h1, h2, h3]
  · intro ht h1 h2
    simp [extract_published_at, dateMetaSelectorHits, List.findSome?, h1, h2, ht]

/-- Witness for the amended C4 theorem: a page with no time element but a
pubdate meta tag yields the meta date (the claim's own positive example of a
page with no time tag but a matching meta tag). -/
theorem extract_published_at_strategy_order_witness :
    extract_published_at ⟨none, some "2024-03-04", []⟩ = some "2024-03-04" :=
  (extract_published_at_strategy_order ⟨none, some "2024-03-04", []⟩).2.1
    "2024-03-04" (by decide) (by decide)

/-! ## HTTP fetchers: http_get (DB crawler) and fetch (legacy crawler) -/

/-- Outcome of one fetch call: the body is irrelevant to the claims, so a
successful return is represented by its status code; raise_for_status and
the post-loop raise are error outcomes; the legacy crawler's final
RuntimeError("Unreachable state ...") after exhausting every attempt on
retryable statuses is its own outcome. -/
inductive FetchOut
  | ok (status : Nat)
  | httpError (status : Nat)
  | exhaustedError
deriving DecidableEq

/-- A fetch run: its outcome plus the sleep durations requested between
attempts, in order. -/
structure FetchRun where
  result : FetchOut
  sleeps : List ℚ
deriving DecidableEq

/-- Statuses retried by http_get (tools/fetch_blogs_from_db.py line 97). -/
def retryable_db (s : Nat) : Bool :=
  s == 429 || s == 500 || s == 502 || s == 503 || s == 504

/-- Statuses retried by legacy fetch (tools/legacy/crawl_blog.py line 33):
429 or any 5xx. -/
def retryable_legacy (s : Nat) : Bool :=
  s == 429 || (decide (500 ≤ s) && decide (s < 600))

/-- MAX_RETRIES of tools/fetch_blogs_from_db.py. -/
def MAX_RETRIES : Nat := 3

/-- BACKOFF_SLEEP of tools/fetch_blogs_from_db.py: a constant 5 seconds. -/
def BACKOFF_SLEEP : ℚ := 5

/-- Loop body of http_get: attempt is the 1-based attempt number, lastS the
status of the previous response. When the bounded for-loop ends with every
attempt retryable, the trailing resp.raise_for_status() raises the last
status (always an error status, being 429 or 5xx). Retryable statuses sleep
the constant BACKOFF_SLEEP; any other status at least 400 raises at once;
otherwise the response is returned. -/
def http_get_go (responses : Nat → Nat) : Nat → Nat → Nat → List ℚ → FetchRun
  | lastS, _, 0, sleeps => ⟨.httpError lastS, sleeps⟩
  | _, attempt, remaining + 1, sleeps =>
    let s := responses attempt
    if retryable_db s then
      http_get_go responses s (attempt + 1) remaining (sleeps ++ [BACKOFF_SLEEP])
    else if 400 ≤ s then ⟨.httpError s, sleeps⟩
    else ⟨.ok s, sleeps⟩

/-- Embedding of http_get (tools/fetch_blogs_from_db.py): up to MAX_RETRIES
attempts, constant back-off sleep. Network-level exceptions are outside the
model: responses gives the status code of each attempt. -/
def http_get (responses : Nat → Nat) : FetchRun :=
  http_get_go responses 0 1 MAX_RETRIES []

/-- Loop body of legacy fetch. A retryable status (429 or 5xx) sleeps
base ^ attempt and continues. On any other status at least 400,
raise_for_status raises an HTTPError inside the try block; HTTPError is a
requests.RequestException, so the except branch catches it: on the last
attempt it is re-raised, otherwise the except branch sleeps the same
base ^ attempt and continues. A status below 400 returns the body. When the
loop ends with every attempt consumed by the retryable-status branch, fetch
raises RuntimeError ("Unreachable state"). -/
def fetch_go (responses : Nat → Nat) (base : ℚ) (maxRetries : Nat) :
    Nat → Nat → List ℚ → FetchRun
  | _, 0, sleeps => ⟨.exhaustedError, sleeps⟩
  | attempt, remaining + 1, sleeps =>
    let s := responses attempt
    if retryable_legacy s then
      fetch_go responses base maxRetries (attempt + 1) remaining
        (sleeps ++ [base ^ attempt])
    else if 400 ≤ s then
      if attempt == maxRetries then ⟨.httpError s, sleeps⟩
      else
        fetch_go responses base maxRetries (attempt + 1) remaining
          (sleeps ++ [base ^ attempt])
    else ⟨.ok s, sleeps⟩

/-- Embedding of fetch (tools/legacy/crawl_blog.py), with its default
max_retries=5 and backoff_base=1.7 supplied by callers. Connection-level
failures of session.get itself (timeouts, resets) are outside the model,
which covers runs where every attempt yields a status code; the HTTPError
that raise_for_status throws for a non-retryable 4xx/5xx status is
modelled, including its catch-and-retry by the except branch. -/
def fetch (responses : Nat → Nat) (maxRetries : Nat) (base : ℚ) : FetchRun :=
  fetch_go responses base maxRetries 1 maxRetries []

/-- Responses for the claim's scenario: 429 on the first three attempts,
then 200. -/
def resp429x3 : Nat → Nat := fun a => if a ≤ 3 then 429 else 200

/-- Counterexample to claim C5 against http_get of
tools/fetch_blogs_from_db.py: on responses 429, 429, 429, 200 the fetch does
not succeed — MAX_RETRIES is 3, so the fourth attempt is never made and the
last 429 is raised — and the three back-off sleeps are the constant
BACKOFF_SLEEP = 5 seconds each, not base ^ attempt and not strictly
increasing. The claim says every fetcher sleeps strictly increasing
base ^ attempt durations and that this scenario succeeds after 3 sleeps. -/
theorem http_get_429x3_fails_with_constant_sleeps :
    http_get resp429x3 = ⟨.httpError 429, [5, 5, 5]⟩
    ∧ ¬ List.Chain' (· < ·) (http_get resp429x3).sleeps := by
  have h1 : http_get resp429x3 = ⟨.httpError 429, [5, 5, 5]⟩ := by decide
  refine ⟨h1, ?_⟩
  rw [h1]
  norm_num [List.chain'_cons]

lemma fetch_go_sleeps_length (responses : Nat → Nat) (base : ℚ)
    (maxRetries : Nat) :
    ∀ (remaining attempt : Nat) (sleeps : List ℚ),
      (fetch_go responses base maxRetries attempt remaining sleeps).sleeps.length
        ≤ sleeps.length + remaining := by
  intro remaining
  induction remaining with
  | zero => intro attempt sleeps; simp [fetch_go]
  | succ rem ih =>
    intro attempt sleeps
    unfold fetch_go
    by_cases h : retryable_legacy (responses attempt)
    · simp only [h, if_pos]
      calc (fetch_go responses base maxRetries (attempt + 1) rem
            (sleeps ++ [base ^ attempt])).sleeps.length
          ≤ (sleeps ++ [base ^ attempt]).length + rem := ih (attempt + 1) _
        _ = sleeps.length + (rem + 1) := by simp [List.length_append]; omega
    · simp only [h, Bool.false_eq_true, if_false]
      split
      · split
        · exact Nat.le_add_right _ _
        · calc (fetch_go responses base maxRetries (attempt + 1) rem
              (sleeps ++ [base ^ attempt])).sleeps.length
              ≤ (sleeps ++ [base ^ attempt]).length + rem := ih (attempt + 1) _
            _ = sleeps.length + (rem + 1) := by
                simp [List.length_append]
                omega
      · exact Nat.le_add_right _ _

lemma http_get_go_sleeps_const (responses : Nat → Nat) :
    ∀ (remaining lastS attempt : Nat) (sleeps : List ℚ),
      sleeps.all (fun q => q == BACKOFF_SLEEP) = true →
      ((http_get_go responses lastS attempt remaining sleeps).sleeps).all
        (fun q => q == BACKOFF_SLEEP) = true := by
  intro remaining
  induction remaining with
  | zero => intro lastS attempt sleeps h; simpa [http_get_go] using h
  | succ rem ih =>
    intro lastS attempt sleeps h
    unfold http_get_go
    by_cases hr : retryable_db (responses attempt)
    · simp only [hr, if_pos]
      apply ih
      simp [List.all_append, h]
    · simp only [hr, Bool.false_eq_true, if_false]
      split
      · simpa using h
      · simpa using h

/-- Claim C5 (amended): neither fetcher matches the claim in full. The
legacy fetch (tools/legacy/crawl_blog.py) retries 429/5xx with strictly
increasing base ^ attempt sleeps, and on 429, 429, 429, 200 it succeeds
after exactly three increasing sleeps; but a non-retryable 4xx does not
fail immediately there: the HTTPError that raise_for_status throws is a
requests.RequestException, caught by the except branch and retried with the
same back-off, so a constant 404 makes max_retries = 5 attempts with four
increasing sleeps before the error is re-raised — never more than
max_retries sleeps. The DB crawler's http_get does fail immediately with
zero sleeps on any non-retryable 4xx such as 404 (its raise_for_status is
not wrapped in a try), but it sleeps the constant BACKOFF_SLEEP = 5 seconds
on 429/5xx (not base ^ attempt, not increasing) and allows only
MAX_RETRIES = 3 attempts, so the 429-three-times-then-200 scenario fails
there. -/
theorem fetch_backoff_behaviour :
    fetch resp429x3 5 (17 / 10)
        = ⟨.ok 200, [(17 / 10 : ℚ) ^ 1, (17 / 10 : ℚ) ^ 2, (17 / 10 : ℚ) ^ 3]⟩
    ∧ ((17 / 10 : ℚ) ^ 1 < (17 / 10 : ℚ) ^ 2
        ∧ (17 / 10 : ℚ) ^ 2 < (17 / 10 : ℚ) ^ 3
        ∧ (17 / 10 : ℚ) ^ 3 < (17 / 10 : ℚ) ^ 4)
    ∧ fetch (fun _ => 404) 5 (17 / 10)
        = ⟨.httpError 404, [(17 / 10 : ℚ) ^ 1, (17 / 10 : ℚ) ^ 2,
            (17 / 10 : ℚ) ^ 3, (17 / 10 : ℚ) ^ 4]⟩
    ∧ (∀ responses : Nat → Nat,
        (fetch responses 5 (17 / 10)).sleeps.length ≤ 5)
    ∧ (∀ (s : Nat) (responses : Nat → Nat),
        400 ≤ s → s ≠ 429 → s < 500 → responses 1 = s →
        http_get responses = ⟨.httpError s, []⟩)
    ∧ (∀ responses : Nat → Nat,
        ((http_get responses).sleeps).all (fun q => q == BACKOFF_SLEEP) = true) := by
  refine ⟨?_, ?_, ?_, ?_, ?_, ?_⟩
  · simp [fetch, fetch_go, resp429x3, retryable_legacy]
  · refine ⟨by norm_num, by norm_num, by norm_num⟩
  · simp [fetch, fetch_go, retryable_legacy]
  · intro responses
    have := fetch_go_sleeps_length responses (17 / 10) 5 5 1 []
    simpa [fetch] using this
  · intro s responses h400 h429 h500 hr1
    have hret : retryable_db s = false := by
      simp [retryable_db, beq_eq_false_iff_ne]
      omega
    simp only [http_get, MAX_RETRIES]
    unfold http_get_go
    simp only [hr1]
    simp [hret, h400]
  · intro responses
    exact http_get_go_sleeps_const responses MAX_RETRIES 0 1 [] (by decide)

/-- Witness for the amended C5 theorem: in the DB crawler a 404 on the first
attempt fails immediately with zero sleeps. -/
theorem http_get_404_immediate_witness :
    http_get (fun _ => 404) = ⟨.httpError 404, []⟩ :=
  fetch_backoff_behaviour.2.2.2.2.1 404 (fun _ => 404)
    (by norm_num) (by norm_num) (by norm_num) rfl

/-! ## The backward walker (crawl_blog of tools/fetch_blogs_from_db.py) -/

/-- Parsed data of one post page, as crawl_blog computes it per iteration:
extract_title, extract_published_at, and extract_prev_next followed by
normalize_url against the page URL (so prevAbs/nextAbs are absolute). -/
structure PageData where
  title : Option String
  publishedAt : Option String
  prevAbs : Option Url
  nextAbs : Option Url
deriving DecidableEq

/-- A site: what fetching and parsing a URL yields. A none value means
http_get raised for that URL (fetch error). The site function is fixed for
the run, matching deterministic pages. -/
abbrev Site := Url → Option PageData

/-- Why the while-loop of crawl_blog ended. outOfFuel is a model artifact:
the Python loop has no fuel, so theorems about real runs hypothesise or
choose fuel large enough that it is never hit. -/
inductive StopReason where
  | noPrev
  | cycleGuard
  | ceiling
  | knownPrev (u : Url)
  | fetchError (u : Url)
  | outOfFuel
deriving DecidableEq

def StopReason.isFetchErr : StopReason → Bool
  | .fetchError _ => true
  | _ => false

/-- State when the walk over one source ends: the BlogPost table, the
visited set (in visit order; Python keeps a set, the model keeps the list of
its insertions), the count of posts seen, and why the loop stopped. -/
structure WalkOutcome where
  storage : Storage
  visited : List Url
  seen : Nat
  stop : StopReason
deriving DecidableEq

/-- Embedding of the while-loop of crawl_blog (tools/fetch_blogs_from_db.py
lines 419-464). Each iteration: stop if the current URL was already visited
this run (cycle guard); record it visited; fetch and parse (a fetch error
aborts the walk); upsert the post; stop if the per-run ceiling
max_posts_per_blog is non-zero and reached; if there is an older link, stop
when that URL already exists in BlogPost (incremental convergence, checked
before any fetch of it), else advance to it; with no older link the loop
condition ends the walk. -/
def walkLoop (site : Site) (name : String) (maxPosts : Nat) :
    Nat → Url → List Url → Storage → Nat → WalkOutcome
  | 0, _, visited, st, seen => ⟨st, visited, seen, .outOfFuel⟩
  | fuel + 1, u, visited, st, seen =>
    if u ∈ visited then ⟨st, visited, seen, .cycleGuard⟩
    else
      match site u with
      | none => ⟨st, visited ++ [u], seen, .fetchError u⟩
      | some pg =>
        let st2 := upsert_post st name u pg.title pg.publishedAt pg.prevAbs pg.nextAbs
        let visited2 := visited ++ [u]
        let seen2 := seen + 1
        if maxPosts ≠ 0 ∧ maxPosts ≤ seen2 then ⟨st2, visited2, seen2, .ceiling⟩
        else
          match pg.prevAbs with
          | none => ⟨st2, visited2, seen2, .noPrev⟩
          | some p =>
            if existsPost st2 p then ⟨st2, visited2, seen2, .knownPrev p⟩
            else walkLoop site name maxPosts fuel p visited2 st2 seen2

/-- One row of the Source table (the columns crawl_blog touches). -/
structure SourceRow where
  id : Nat
  name : String
  url : String
  lastChecked : Option Nat
  lastSuccess : Option Nat
  firstPostDate : Option String
  lastPostDate : Option String
  totalPosts : Nat
  statusCode : Nat
deriving DecidableEq

/-- Everything after the first double slash, as Python's
url.split("//", 1)[-1]: the whole string when no double slash occurs. -/
def afterDoubleSlash (u : String) : List Char :=
  go u.toList
where
  go : List Char → List Char
    | '/' :: '/' :: rest => rest
    | _ :: rest => go rest
    | [] => []

def hasDoubleSlash (u : String) : Bool :=
  go u.toList
where
  go : List Char → Bool
    | '/' :: '/' :: _ => true
    | _ :: rest => go rest
    | [] => false

/-- Embedding of host_from_url (tools/fetch_blogs_from_db.py):
url.split("//", 1)[-1].split("/", 1)[0].lower(). -/
def host_from_url (u : String) : String :=
  let cs := if hasDoubleSlash u then afterDoubleSlash u else u.toList
  String.mk ((cs.takeWhile (fun c => c ≠ '/')).map Char.toLower)

def endsWithSlash (u : String) : Bool :=
  match u.toList.getLast? with
  | some c => c == '/'
  | none => false

/-- home_url of crawl_blog: the source URL with a trailing slash ensured. -/
def home_url_of (u : String) : String :=
  if endsWithSlash u then u else u ++ "/"

/-- The WHERE clause of refresh_source_summary:
url LIKE CONCAT('https://', host, '/%'). -/
def urlMatchesHost (host : String) (u : Url) : Bool :=
  ("https://" ++ host ++ "/").toList.isPrefixOf u.toList

def minStrOpt (l : List String) : Option String :=
  l.foldl (fun acc s =>
    match acc with
    | none => some s
    | some m => if s < m then some s else some m) none

def maxStrOpt (l : List String) : Option String :=
  l.foldl (fun acc s =>
    match acc with
    | none => some s
    | some m => if m < s then some s else some m) none

/-- DATE() truncation of an ISO datetime string. -/
def date10 (s : String) : String := String.mk (s.toList.take 10)

/-- Embedding of refresh_source_summary (tools/fetch_blogs_from_db.py):
first/last post date are DATE(MIN(published_at)) and DATE(MAX(published_at))
over the posts whose url matches the host (SQL MIN/MAX ignore NULL;
ISO-formatted strings compare lexicographically in date order), total_posts
counts every matching row. -/
def refresh_source_summary (st : Storage) (host : String) (src : SourceRow) :
    SourceRow :=
  let posts := st.filter (fun p => urlMatchesHost host p.1)
  let dates := posts.filterMap (fun p => p.2.publishedAt)
  { src with firstPostDate := (minStrOpt dates).map date10,
             lastPostDate := (maxStrOpt dates).map date10,
             totalPosts := posts.length }

/-- Embedding of mark_source_checked (tools/fetch_blogs_from_db.py):
last_checked is always set to NOW(); last_success only on success (on
failure the format string fills the success slot with last_checked again, a
no-op); status_code is always written. -/
def mark_source_checked (src : SourceRow) (success : Bool) (statusCode : Nat)
    (now : Nat) : SourceRow :=
  if success then
    { src with lastChecked := some now, lastSuccess := some now,
               statusCode := statusCode }
  else
    { src with lastChecked := some now, statusCode := statusCode }

/-- Result of crawl_blog for one source: the table, the updated Source row,
the returned (new_posts_count, error_message) pair. -/
structure CrawlResult where
  storage : Storage
  source : SourceRow
  newPosts : Nat
  err : Option String
deriving DecidableEq

/-- Embedding of crawl_blog (tools/fetch_blogs_from_db.py lines 396-481).
Start-point discovery (latest_post_from_home and the --start-url override)
depends on live homepage HTML and is modelled by the startUrl argument: none
means discovery failed (the RuntimeError path). On a fetch error during the
walk the exception handler marks the source checked-but-not-successful with
status 1 and returns the error; committed upserts persist. Otherwise the
summary is refreshed from the walk's final table and the source is marked
checked-and-successful. -/
def crawl_blog (site : Site) (maxPosts : Nat) (startUrl : Option Url)
    (fuel : Nat) (src : SourceRow) (st : Storage) (now : Nat) : CrawlResult :=
  let host := host_from_url (home_url_of src.url)
  match startUrl with
  | none =>
    ⟨st, mark_source_checked src false 1 now, 0,
      some "Could not locate latest post URL on homepage."⟩
  | some s =>
    let out := walkLoop site src.name maxPosts fuel s [] st 0
    match out.stop with
    | .fetchError u =>
      ⟨out.storage, mark_source_checked src false 1 now, 0,
        some ("HTTP error on " ++ u)⟩
    | _ =>
      ⟨out.storage,
        mark_source_checked (refresh_source_summary out.storage host src)
          true 0 now,
        out.seen, none⟩

/-- A site presents the given list as a backward chain when each page in the
list links, as its older link, to the next list element. Nothing is said
about the last element's page. -/
def isChain (site : Site) : List Url → Prop
  | u :: v :: rest =>
    (∃ pg, site u = some pg ∧ pg.prevAbs = some v) ∧ isChain site (v :: rest)
  | _ => True

lemma nodup_append_one (l : List Url) (u : Url) (h : l.Nodup) (hu : u ∉ l) :
    (l ++ [u]).Nodup := by
  rw [List.nodup_append]
  refine ⟨h, List.nodup_singleton u, ?_⟩
  intro a ha hb
  simp only [List.mem_singleton] at hb
  subst hb
  exact hu ha

lemma walkLoop_visited_nodup (site : Site) (name : String) (maxPosts : Nat) :
    ∀ (fuel : Nat) (u : Url) (vis : List Url) (st : Storage) (sn : Nat),
      vis.Nodup →
      ((walkLoop site name maxPosts fuel u vis st sn).visited).Nodup := by
  intro fuel
  induction fuel with
  | zero =>
    intro u vis st sn h
    simpa [walkLoop] using h
  | succ f ih =>
    intro u vis st sn h
    rw [walkLoop]
    by_cases hv : u ∈ vis
    · simpa [hv] using h
    · simp only [hv, if_neg, if_false]
      cases hsite : site u with
      | none => simpa using nodup_append_one vis u h hv
      | some pg =>
        simp only
        split
        · simpa using nodup_append_one vis u h hv
        · cases hprev : pg.prevAbs with
          | none => simpa using nodup_append_one vis u h hv
          | some p =>
            simp only
            split
            · simpa using nodup_append_one vis u h hv
            · exact ih p (vis ++ [u]) _ _ (nodup_append_one vis u h hv)

lemma walkLoop_storage_mono (site : Site) (name : String) (maxPosts : Nat) :
    ∀ (fuel : Nat) (u : Url) (vis : List Url) (st : Storage) (sn : Nat)
      (w : Url),
      existsPost st w = true →
      existsPost (walkLoop site name maxPosts fuel u vis st sn).storage w
        = true := by
  intro fuel
  induction fuel with
  | zero =>
    intro u vis st sn w h
    simpa [walkLoop] using h
  | succ f ih =>
    intro u vis st sn w h
    rw [walkLoop]
    by_cases hv : u ∈ vis
    · simpa [hv] using h
    · simp only [hv, if_neg, if_false]
      cases hsite : site u with
      | none => simpa using h
      | some pg =>
        have hup : existsPost
            (upsert_post st name u pg.title pg.publishedAt pg.prevAbs
              pg.nextAbs) w = true := by
          rw [existsPost_upsert, h, Bool.true_or]
        simp only
        split
        · simpa using hup
        · cases hprev : pg.prevAbs with
          | none =>
            rw [hprev] at hup
            simpa using hup
          | some p =>
            rw [hprev] at hup
            simp only
            split
            · simpa using hup
            · exact ih p (vis ++ [u]) _ _ w hup

lemma walkLoop_start_in_storage (site : Site) (name : String) (maxPosts : Nat)
    (fuel : Nat) (u : Url) (vis : List Url) (st : Storage) (sn : Nat)
    (hv : u ∉ vis)
    (hfuel : (walkLoop site name maxPosts fuel u vis st sn).stop
      ≠ .outOfFuel)
    (herr : ((walkLoop site name maxPosts fuel u vis st sn).stop).isFetchErr
      = false) :
    existsPost (walkLoop site name maxPosts fuel u vis st sn).storage u
      = true := by
  cases fuel with
  | zero => exact absurd rfl hfuel
  | succ f =>
    rw [walkLoop] at hfuel herr ⊢
    simp only [hv, if_neg, if_false] at hfuel herr ⊢
    cases hsite : site u with
    | none =>
      rw [hsite] at herr
      simp [StopReason.isFetchErr] at herr
    | some pg =>
      clear hfuel herr
      have hu : existsPost
          (upsert_post st name u pg.title pg.publishedAt pg.prevAbs
            pg.nextAbs) u = true := by
        rw [existsPost_upsert]
        simp
      simp only
      split
      · simpa using hu
      · cases hprev : pg.prevAbs with
        | none =>
          rw [hprev] at hu
          simpa using hu
        | some p =>
          rw [hprev] at hu
          simp only
          split
          · simpa using hu
          · exact walkLoop_storage_mono site name maxPosts f p (vis ++ [u])
              _ _ u hu

lemma walkLoop_lookup_frozen (site : Site) (name : String) (maxPosts : Nat) :
    ∀ (fuel : Nat) (u : Url) (vis : List Url) (st : Storage) (sn : Nat)
      (sKey : Url),
      u ≠ sKey → existsPost st sKey = true →
      lookupPost (walkLoop site name maxPosts fuel u vis st sn).storage sKey
        = lookupPost st sKey := by
  intro fuel
  induction fuel with
  | zero =>
    intro u vis st sn sKey _ _
    simp [walkLoop]
  | succ f ih =>
    intro u vis st sn sKey hne hsk
    rw [walkLoop]
    by_cases hv : u ∈ vis
    · simp [hv]
    · simp only [hv, if_neg, if_false]
      cases hsite : site u with
      | none => simp
      | some pg =>
        have hfrozen : lookupPost
            (upsert_post st name u pg.title pg.publishedAt pg.prevAbs
              pg.nextAbs) sKey = lookupPost st sKey :=
          lookupPost_upsert_ne st name u _ _ _ _ sKey (fun hc => hne hc.symm)
        have hsk2 : existsPost
            (upsert_post st name u pg.title pg.publishedAt pg.prevAbs
              pg.nextAbs) sKey = true := by
          rw [existsPost_upsert, hsk, Bool.true_or]
        simp only
        split
        · simpa using hfrozen
        · cases hprev : pg.prevAbs with
          | none =>
            rw [hprev] at hfrozen
            simpa using hfrozen
          | some p =>
            rw [hprev] at hfrozen hsk2
            simp only
            split
            · simpa using hfrozen
            · rename_i hnotex
              have hpne : p ≠ sKey := by
                intro hc
                subst hc
                simp only [hsk2] at hnotex
                exact hnotex trivial
              rw [ih p (vis ++ [u]) _ _ sKey hpne hsk2]
              exact hfrozen

lemma walkLoop_WF (site : Site) (name : String) (maxPosts : Nat) :
    ∀ (fuel : Nat) (u : Url) (vis : List Url) (st : Storage) (sn : Nat),
      storageWF st →
      storageWF (walkLoop site name maxPosts fuel u vis st sn).storage := by
  intro fuel
  induction fuel with
  | zero =>
    intro u vis st sn h
    simpa [walkLoop] using h
  | succ f ih =>
    intro u vis st sn h
    rw [walkLoop]
    by_cases hv : u ∈ vis
    · simpa [hv] using h
    · simp only [hv, if_neg, if_false]
      cases hsite : site u with
      | none => simpa using h
      | some pg =>
        have hwf2 : storageWF
            (upsert_post st name u pg.title pg.publishedAt pg.prevAbs
              pg.nextAbs) :=
          storageWF_upsert st name u _ _ _ _ h
        simp only
        split
        · simpa using hwf2
        · cases hprev : pg.prevAbs with
          | none =>
            rw [hprev] at hwf2
            simpa using hwf2
          | some p =>
            rw [hprev] at hwf2
            simp only
            split
            · simpa using hwf2
            · exact ih p (vis ++ [u]) _ _ hwf2

lemma walkLoop_fresh_chain (site : Site) (name : String) :
    ∀ (fresh : List Url) (u : Url) (k : Url) (fuel : Nat) (vis : List Url)
      (st : Storage) (sn : Nat),
      isChain site (u :: (fresh ++ [k])) →
      (∀ x ∈ u :: fresh, existsPost st x = false) →
      (∀ x ∈ u :: fresh, x ∉ vis) →
      (u :: (fresh ++ [k])).Nodup →
      existsPost st k = true →
      fresh.length + 1 ≤ fuel →
      (walkLoop site name 0 fuel u vis st sn).visited = vis ++ (u :: fresh)
      ∧ (walkLoop site name 0 fuel u vis st sn).stop = .knownPrev k
      ∧ (walkLoop site name 0 fuel u vis st sn).seen = sn + (fresh.length + 1) := by
  intro fresh
  induction fresh with
  | nil =>
    intro u k fuel vis st sn hchain hfreshSt hfreshVis hnd hk hfuel
    obtain ⟨pg, hsite, hprev⟩ := hchain.1
    cases fuel with
    | zero => omega
    | succ f =>
      have hv : u ∉ vis := hfreshVis u (by simp)
      have hk2 : existsPost
          (upsert_post st name u pg.title pg.publishedAt (some k)
            pg.nextAbs) k = true := by
        rw [existsPost_upsert, hk, Bool.true_or]
      rw [walkLoop]
      simp only [hv, if_neg, if_false, hsite]
      have hceil : ¬((0 : Nat) ≠ 0 ∧ 0 ≤ sn + 1) := by simp
      simp only [hceil, if_false, hprev, hk2, if_pos]
      exact ⟨by simp, by simp, by simp⟩
  | cons v rest ih =>
    intro u k fuel vis st sn hchain hfreshSt hfreshVis hnd hk hfuel
    obtain ⟨pg, hsite, hprev⟩ := hchain.1
    cases fuel with
    | zero => simp at hfuel
    | succ f =>
      have hv : u ∉ vis := hfreshVis u (by simp)
      have hnvu : v ≠ u := by
        have := hnd
        rw [List.nodup_cons] at this
        intro hc
        exact this.1 (by simp [← hc])
      have hku : k ≠ u := by
        have := hnd
        rw [List.nodup_cons] at this
        intro hc
        exact this.1 (by simp [← hc])
      have hvfresh : existsPost st v = false := hfreshSt v (by simp)
      have hvst2 : existsPost
          (upsert_post st name u pg.title pg.publishedAt (some v)
            pg.nextAbs) v = false := by
        rw [existsPost_upsert, hvfresh, Bool.false_or]
        exact beq_eq_false_iff_ne.2 hnvu
      rw [walkLoop]
      simp only [hv, if_neg, if_false, hsite]
      have hceil : ¬((0 : Nat) ≠ 0 ∧ 0 ≤ sn + 1) := by simp
      simp only [hceil, if_false, hprev, hvst2, Bool.false_eq_true, if_false]
      have hrec := ih v k f (vis ++ [u])
        (upsert_post st name u pg.title pg.publishedAt (some v) pg.nextAbs)
        (sn + 1)
        (by
          have := hchain.2
          simpa using this)
        (by
          intro x hx
          have hxst : existsPost st x = false :=
            hfreshSt x (List.mem_cons_of_mem u hx)
          have hxu : x ≠ u := by
            have hnd' := hnd
            rw [List.nodup_cons] at hnd'
            intro hc
            subst hc
            exact hnd'.1 (List.mem_append_left _ hx)
          rw [existsPost_upsert, hxst, Bool.false_or]
          exact beq_eq_false_iff_ne.2 hxu)
        (by
          intro x hx
          have hxvis : x ∉ vis := hfreshVis x (List.mem_cons_of_mem u hx)
          have hxu : x ≠ u := by
            have hnd' := hnd
            rw [List.nodup_cons] at hnd'
            intro hc
            subst hc
            exact hnd'.1 (List.mem_append_left _ hx)
          simp [List.mem_append, hxvis, hxu])
        (by
          have := hnd
          rw [List.nodup_cons] at this
          exact this.2)
        (by
          rw [existsPost_upsert, hk, Bool.true_or])
        (by simpa using Nat.le_of_succ_le_succ hfuel)
      refine ⟨?_, hrec.2.1, ?_⟩
      · rw [hrec.1]
        simp
      · rw [hrec.2.2]
        simp
        omega

lemma walkLoop_chain_ceiling (site : Site) (name : String) (K : Nat) :
    ∀ (l : List Url) (u : Url) (fuel : Nat) (vis : List Url) (st : Storage)
      (sn : Nat),
      isChain site (u :: l) →
      (∀ x ∈ u :: l, existsPost st x = false) →
      (∀ x ∈ u :: l, x ∉ vis) →
      (u :: l).Nodup →
      0 < K → sn < K → K - sn ≤ l.length → K - sn ≤ fuel →
      (walkLoop site name K fuel u vis st sn).visited
        = vis ++ (u :: l).take (K - sn)
      ∧ (walkLoop site name K fuel u vis st sn).stop = .ceiling
      ∧ (walkLoop site name K fuel u vis st sn).seen = K := by
  intro l
  induction l with
  | nil =>
    intro u fuel vis st sn _ _ _ _ hK hsn hlen _
    simp at hlen
    omega
  | cons v rest ih =>
    intro u fuel vis st sn hchain hfreshSt hfreshVis hnd hK hsn hlen hfuel
    obtain ⟨pg, hsite, hprev⟩ := hchain.1
    cases fuel with
    | zero => omega
    | succ f =>
      have hv : u ∉ vis := hfreshVis u (by simp)
      rw [walkLoop]
      simp only [hv, if_neg, if_false, hsite]
      by_cases hK1 : K ≤ sn + 1
      · have htake : K - sn = 1 := by omega
        rw [if_pos (⟨by omega, hK1⟩ : K ≠ 0 ∧ K ≤ sn + 1)]
        refine ⟨?_, rfl, by simp; omega⟩
        simp [htake]
      · have hceilF : ¬(K ≠ 0 ∧ K ≤ sn + 1) := by
          intro hc
          exact hK1 hc.2
        have hnvu : v ≠ u := by
          have hnd' := hnd
          rw [List.nodup_cons] at hnd'
          intro hc
          exact hnd'.1 (by simp [← hc])
        have hvfresh : existsPost st v = false := hfreshSt v (by simp)
        have hvst2 : existsPost
            (upsert_post st name u pg.title pg.publishedAt (some v)
              pg.nextAbs) v = false := by
          rw [existsPost_upsert, hvfresh, Bool.false_or]
          exact beq_eq_false_iff_ne.2 hnvu
        rw [if_neg hceilF]
        simp only [hprev, hvst2, Bool.false_eq_true, if_false]
        have hrec := ih v f (vis ++ [u])
          (upsert_post st name u pg.title pg.publishedAt (some v) pg.nextAbs)
          (sn + 1)
          hchain.2
          (by
            intro x hx
            have hxst : existsPost st x = false :=
              hfreshSt x (List.mem_cons_of_mem u hx)
            have hxu : x ≠ u := by
              have hnd' := hnd
              rw [List.nodup_cons] at hnd'
              intro hc
              subst hc
              exact hnd'.1 hx
            rw [existsPost_upsert, hxst, Bool.false_or]
            exact beq_eq_false_iff_ne.2 hxu)
          (by
            intro x hx
            have hxvis : x ∉ vis := hfreshVis x (List.mem_cons_of_mem u hx)
            have hxu : x ≠ u := by
              have hnd' := hnd
              rw [List.nodup_cons] at hnd'
              intro hc
              subst hc
              exact hnd'.1 hx
            simp [List.mem_append, hxvis, hxu])
          (by
            have hnd' := hnd
            rw [List.nodup_cons] at hnd'
            exact hnd'.2)
          hK
          (by omega)
          (by simp at hlen ⊢; omega)
          (by omega)
        refine ⟨?_, hrec.2.1, hrec.2.2⟩
        rw [hrec.1]
        have hks : K - sn = (K - (sn + 1)) + 1 := by omega
        rw [hks, List.take_succ_cons]
        simp

/-! ## Claim C1: incremental convergence -/

/-- Concrete URLs for walker scenarios. -/
def urlA : Url := "https://t.blog.gov.uk/2024/01/12/a/"

def urlB : Url := "https://t.blog.gov.uk/2024/01/11/b/"

def rowOf (name : String) : Row := ⟨name, none, none, none, none⟩

/-- A one-post site: the single post has no older link. -/
def singleSite : Site := fun u =>
  if u = urlA then some ⟨none, none, none, none⟩ else none

/-- Counterexample to claim C1: a backward chain consisting of one post whose
URL is already in storage (the already-present suffix is the whole chain).
The previously-unvisited set is empty, yet the walk visits (fetches and
upserts) the start post: crawl_blog performs no existence check on the start
URL, only on older-post URLs. -/
theorem walk_refetches_stored_start_post :
    existsPost [(urlA, rowOf "T blog")] urlA = true
    ∧ (walkLoop singleSite "T blog" 0 5 urlA [] [(urlA, rowOf "T blog")] 0).visited
        = [urlA]
    ∧ (walkLoop singleSite "T blog" 0 5 urlA [] [(urlA, rowOf "T blog")] 0).seen
        = 1 := by
  refine ⟨by decide, by decide, by decide⟩

/-- Claim C1 (amended): over a backward chain of posts with valid older
links, where a proper suffix of the chain (not including the start post) is
already present in storage, a walk with no post ceiling visits exactly the
previously-unvisited prefix, in order, and stops at the first post whose URL
already exists in storage; that URL is never fetched, its existence having
been checked first (stop reason knownPrev). The start post itself, however,
is always fetched without a prior existence check, so the restriction to a
proper suffix is necessary (see the counterexample). -/
theorem walk_converges_incremental (site : Site) (name : String)
    (u : Url) (fresh : List Url) (k : Url) (st : Storage) (fuel : Nat)
    (hchain : isChain site (u :: (fresh ++ [k])))
    (hfreshSt : ∀ x ∈ u :: fresh, existsPost st x = false)
    (hnd : (u :: (fresh ++ [k])).Nodup)
    (hk : existsPost st k = true)
    (hfuel : fresh.length + 1 ≤ fuel) :
    (walkLoop site name 0 fuel u [] st 0).visited = u :: fresh
    ∧ (walkLoop site name 0 fuel u [] st 0).stop = .knownPrev k
    ∧ k ∉ (walkLoop site name 0 fuel u [] st 0).visited := by
  have h := walkLoop_fresh_chain site name fresh u k fuel [] st 0
    hchain hfreshSt (by intro x _; simp) hnd hk hfuel
  refine ⟨by simpa using h.1, h.2.1, ?_⟩
  rw [h.1]
  simp only [List.nil_append]
  intro hc
  rw [List.nodup_cons] at hnd
  rcases List.mem_cons.mp hc with hc1 | hc2
  · exact hnd.1 (by
      rw [← hc1]
      exact List.mem_append_right fresh (by simp))
  · have hdisj := (List.nodup_append.mp hnd.2).2.2
    exact hdisj hc2 (by simp)

/-- A two-post chain: urlA links back to urlB, urlB has no older link. -/
def chainSiteAB : Site := fun u =>
  if u = urlA then some ⟨none, none, some urlB, none⟩
  else if u = urlB then some ⟨none, none, none, none⟩ else none

/-- Witness for the amended C1 theorem: urlB is already stored, urlA is new;
the walk visits exactly urlA. -/
theorem walk_converges_incremental_witness :
    (walkLoop chainSiteAB "T blog" 0 5 urlA [] [(urlB, rowOf "T blog")] 0).visited
      = [urlA] :=
  (walk_converges_incremental chainSiteAB "T blog" urlA [] urlB
    [(urlB, rowOf "T blog")] 5
    ⟨⟨⟨none, none, some urlB, none⟩, by decide, rfl⟩, trivial⟩
    (by decide) (by decide) (by decide) (by decide)).1

/-! ## Claim C2: at-most-once visits and cycle termination -/

/-- A two-cycle of older links: A points back to B and B back to A. -/
def cycleSite (A B : Url) : Site := fun u =>
  if u = A then some ⟨none, none, some B, none⟩
  else if u = B then some ⟨none, none, some A, none⟩ else none

/-- Claim C2: in every walk each URL is fetched at most once per run
(the visited list never repeats); a walk over a two-cycle of older links
terminates from any starting storage within three iterations; and on the
fresh two-cycle the walk visits A then B, each exactly once, then stops —
the stop is the storage existence check on A, which the walk itself upserted,
rather than the in-memory cycle guard. -/
theorem walk_visits_once_and_cycle_terminates :
    (∀ (site : Site) (name : String) (maxPosts fuel : Nat) (u : Url)
        (st : Storage),
      ((walkLoop site name maxPosts fuel u [] st 0).visited).Nodup)
    ∧ (∀ (A B : Url) (name : String) (st : Storage), A ≠ B →
        (walkLoop (cycleSite A B) name 0 3 A [] st 0).stop ≠ .outOfFuel)
    ∧ (walkLoop (cycleSite urlA urlB) "Test blog" 0 10 urlA [] [] 0).visited
        = [urlA, urlB]
    ∧ (walkLoop (cycleSite urlA urlB) "Test blog" 0 10 urlA [] [] 0).stop
        = .knownPrev urlA := by
  refine ⟨?_, ?_, by decide, by decide⟩
  · intro site name maxPosts fuel u st
    exact walkLoop_visited_nodup site name maxPosts fuel u [] st 0
      List.nodup_nil
  · intro A B name st hAB
    have hsA : cycleSite A B A = some ⟨none, none, some B, none⟩ := by
      simp [cycleSite]
    have hsB : cycleSite A B B = some ⟨none, none, some A, none⟩ := by
      simp [cycleSite, hAB.symm]
    rw [walkLoop]
    simp only [List.not_mem_nil, if_neg, if_false, hsA]
    have hceil : ¬((0 : Nat) ≠ 0 ∧ (0 : Nat) ≤ 0 + 1) := by simp
    rw [if_neg hceil]
    by_cases hB : existsPost
        (upsert_post st name A none none (some B) none) B
    · rw [if_pos hB]
      exact fun hcon => StopReason.noConfusion hcon
    · rw [if_neg hB]
      rw [walkLoop]
      have hBmem : B ∉ [] ++ [A] := by
        simp [hAB.symm]
      simp only [hsB]
      rw [if_neg hBmem]
      have hceil2 : ¬((0 : Nat) ≠ 0 ∧ (0 : Nat) ≤ 0 + 1 + 1) := by simp
      rw [if_neg hceil2]
      have hA2 : existsPost
          (upsert_post (upsert_post st name A none none (some B) none)
            name B none none (some A) none) A = true := by
        rw [existsPost_upsert, existsPost_upsert]
        simp
      rw [if_pos hA2]
      exact fun hcon => StopReason.noConfusion hcon

/-- Witness for the C2 theorem: the two-cycle termination bound applied to
the concrete cycle urlA, urlB over empty storage. -/
theorem walk_cycle_terminates_witness :
    (walkLoop (cycleSite urlA urlB) "Test blog" 0 3 urlA [] [] 0).stop
      ≠ .outOfFuel :=
  walk_visits_once_and_cycle_terminates.2.1 urlA urlB "Test blog" []
    (by decide)

/-! ## crawl_blog path equations -/

lemma crawl_blog_none_eq (site : Site) (maxPosts fuel : Nat)
    (src : SourceRow) (st : Storage) (now : Nat) :
    crawl_blog site maxPosts none fuel src st now
      = ⟨st, mark_source_checked src false 1 now, 0,
          some "Could not locate latest post URL on homepage."⟩ := rfl

lemma crawl_blog_success_eq (site : Site) (maxPosts : Nat) (s : Url)
    (fuel : Nat) (src : SourceRow) (st : Storage) (now : Nat)
    (herr : ((walkLoop site src.name maxPosts fuel s [] st 0).stop).isFetchErr
      = false) :
    crawl_blog site maxPosts (some s) fuel src st now
      = ⟨(walkLoop site src.name maxPosts fuel s [] st 0).storage,
         mark_source_checked
           (refresh_source_summary
             (walkLoop site src.name maxPosts fuel s [] st 0).storage
             (host_from_url (home_url_of src.url)) src) true 0 now,
         (walkLoop site src.name maxPosts fuel s [] st 0).seen, none⟩ := by
  unfold crawl_blog
  dsimp only
  cases hstop : (walkLoop site src.name maxPosts fuel s [] st 0).stop with
  | fetchError v =>
    rw [hstop] at herr
    simp [StopReason.isFetchErr] at herr
  | noPrev => rfl
  | cycleGuard => rfl
  | ceiling => rfl
  | knownPrev v => rfl
  | outOfFuel => rfl

lemma crawl_blog_fetcherr_eq (site : Site) (maxPosts : Nat) (s : Url)
    (fuel : Nat) (src : SourceRow) (st : Storage) (now : Nat) (v : Url)
    (hstop : (walkLoop site src.name maxPosts fuel s [] st 0).stop
      = .fetchError v) :
    crawl_blog site maxPosts (some s) fuel src st now
      = ⟨(walkLoop site src.name maxPosts fuel s [] st 0).storage,
         mark_source_checked src false 1 now, 0,
         some ("HTTP error on " ++ v)⟩ := by
  unfold crawl_blog
  dsimp only
  rw [hstop]

/-! ## Claim C7: per-run post ceiling -/

/-- Claim C7: with a configured ceiling K greater than zero, a walk over a
fresh backward chain longer than K visits exactly the first K posts of the
chain, stops with the ceiling stop reason, and crawl_blog then reports K
posts, no error, and marks the source checked and successful (the ceiling
stop is non-fatal). -/
theorem crawl_ceiling_visits_exactly_K (site : Site) (u : Url) (l : List Url)
    (K fuel : Nat) (src : SourceRow) (st : Storage) (now : Nat)
    (hchain : isChain site (u :: l))
    (hfresh : ∀ x ∈ u :: l, existsPost st x = false)
    (hnd : (u :: l).Nodup)
    (hK : 0 < K)
    (hlen : K ≤ l.length)
    (hfuel : K ≤ fuel) :
    (walkLoop site src.name K fuel u [] st 0).visited = (u :: l).take K
    ∧ (walkLoop site src.name K fuel u [] st 0).stop = .ceiling
    ∧ (crawl_blog site K (some u) fuel src st now).newPosts = K
    ∧ (crawl_blog site K (some u) fuel src st now).err = none
    ∧ (crawl_blog site K (some u) fuel src st now).source.lastChecked
        = some now
    ∧ (crawl_blog site K (some u) fuel src st now).source.lastSuccess
        = some now := by
  have h := walkLoop_chain_ceiling site src.name K l u fuel [] st 0
    hchain hfresh (by intro x _; simp) hnd hK (by omega)
    (by simpa using hlen) (by simpa using hfuel)
  have hstop : (walkLoop site src.name K fuel u [] st 0).stop = .ceiling :=
    h.2.1
  have heq := crawl_blog_success_eq site K u fuel src st now
    (by rw [hstop]; rfl)
  refine ⟨by simpa using h.1, hstop, ?_, ?_, ?_, ?_⟩
  · rw [heq]
    exact h.2.2
  · rw [heq]
  · rw [heq]
    simp [mark_source_checked]
  · rw [heq]
    simp [mark_source_checked]

def urlC : Url := "https://t.blog.gov.uk/2024/01/10/c/"

/-- A three-post backward chain urlA, urlB, urlC. -/
def chainSite3 : Site := fun u =>
  if u = urlA then some ⟨none, none, some urlB, none⟩
  else if u = urlB then some ⟨none, none, some urlC, none⟩
  else if u = urlC then some ⟨none, none, none, none⟩ else none

def srcT : SourceRow :=
  ⟨1, "Test blog", "https://t.blog.gov.uk/", none, none, none, none, 0, 0⟩

/-- Witness for the C7 theorem: ceiling 2 over the fresh three-post chain;
two posts reported, no error, checked and success timestamps advanced. -/
theorem crawl_ceiling_visits_exactly_K_witness :
    (crawl_blog chainSite3 2 (some urlA) 5 srcT [] 7).newPosts = 2
    ∧ (crawl_blog chainSite3 2 (some urlA) 5 srcT [] 7).err = none
    ∧ (crawl_blog chainSite3 2 (some urlA) 5 srcT [] 7).source.lastSuccess
        = some 7 :=
  have h := crawl_ceiling_visits_exactly_K chainSite3 urlA [urlB, urlC] 2 5
    srcT [] 7
    ⟨⟨⟨none, none, some urlB, none⟩, by decide, rfl⟩,
     ⟨⟨none, none, some urlC, none⟩, by decide, rfl⟩, trivial⟩
    (by decide) (by decide) (by decide) (by decide) (by decide)
  ⟨h.2.2.1, h.2.2.2.1, h.2.2.2.2.2⟩

/-! ## Claim C8: per-attempt source bookkeeping -/

/-- Claim C8 (amended): after a crawl attempt the checked timestamp always
advances and the success timestamp advances only on success; but the
aggregate summary (first/last post date, total posts) is recomputed from
storage only on the success path. When start discovery fails or the walk
hits a fetch error, the source keeps its previous summary fields untouched
(stale), its checked timestamp advances, its success timestamp does not, and
its status code is set. -/
theorem crawl_checked_always_summary_on_success_only (site : Site)
    (maxPosts : Nat) (s : Url) (fuel : Nat) (src : SourceRow) (st : Storage)
    (now : Nat) :
    ((crawl_blog site maxPosts none fuel src st now).source.lastChecked
        = some now
      ∧ (crawl_blog site maxPosts none fuel src st now).source.lastSuccess
        = src.lastSuccess
      ∧ (crawl_blog site maxPosts none fuel src st now).source.totalPosts
        = src.totalPosts
      ∧ (crawl_blog site maxPosts none fuel src st now).source.firstPostDate
        = src.firstPostDate
      ∧ (crawl_blog site maxPosts none fuel src st now).source.lastPostDate
        = src.lastPostDate)
    ∧ (∀ v, (walkLoop site src.name maxPosts fuel s [] st 0).stop
          = .fetchError v →
        (crawl_blog site maxPosts (some s) fuel src st now).source.lastChecked
          = some now
        ∧ (crawl_blog site maxPosts (some s) fuel src st now).source.lastSuccess
          = src.lastSuccess
        ∧ (crawl_blog site maxPosts (some s) fuel src st now).source.totalPosts
          = src.totalPosts
        ∧ (crawl_blog site maxPosts (some s) fuel src st now).source.firstPostDate
          = src.firstPostDate
        ∧ (crawl_blog site maxPosts (some s) fuel src st now).source.lastPostDate
          = src.lastPostDate)
    ∧ (((walkLoop site src.name maxPosts fuel s [] st 0).stop).isFetchErr
          = false →
        (crawl_blog site maxPosts (some s) fuel src st now).source
          = mark_source_checked
              (refresh_source_summary
                (walkLoop site src.name maxPosts fuel s [] st 0).storage
                (host_from_url (home_url_of src.url)) src) true 0 now) := by
  refine ⟨?_, ?_, ?_⟩
  · rw [crawl_blog_none_eq]
    simp [mark_source_checked]
  · intro v hstop
    rw [crawl_blog_fetcherr_eq site maxPosts s fuel src st now v hstop]
    simp [mark_source_checked]
  · intro herr
    rw [crawl_blog_success_eq site maxPosts s fuel src st now herr]

/-- Witness for the amended C8 theorem: a successful one-post walk; the
source row equals the summary-refreshed, checked-and-successful row. -/
theorem crawl_checked_summary_witness :
    (crawl_blog chainSite3 0 (some urlC) 5 srcT [] 3).source
      = mark_source_checked
          (refresh_source_summary
            (walkLoop chainSite3 srcT.name 0 5 urlC [] [] 0).storage
            (host_from_url (home_url_of srcT.url)) srcT) true 0 3 :=
  (crawl_checked_always_summary_on_success_only chainSite3 0 urlC 5 srcT []
    3).2.2 (by decide)

/-- Source row with a stale summary (total_posts 0) for the C8
counterexample. -/
def srcStale : SourceRow :=
  ⟨2, "Test blog", "https://t.blog.gov.uk/", none, none, none, none, 0, 0⟩

/-- Storage holding one post of the source's host, dated 2024-01-10. -/
def stStale : Storage :=
  [("https://t.blog.gov.uk/2024/01/10/c/",
    ⟨"Test blog", some "C", some "2024-01-10", none, none⟩)]

/-- A site where every fetch raises. -/
def siteDown : Site := fun _ => none

/-- Counterexample to claim C8: a crawl attempt whose walk fails on its
first fetch. The claim says the aggregate summary is recomputed from stored
posts whether the walk succeeds or fails; the code recomputes it only on
success. Here storage holds one attributable post (recomputation would set
total_posts to 1) yet after the failed attempt total_posts is still the
stale 0, while the checked timestamp did advance and the attempt did fail. -/
theorem crawl_failure_leaves_summary_stale :
    (crawl_blog siteDown 0 (some urlA) 5 srcStale stStale 9).source.totalPosts
      = 0
    ∧ (refresh_source_summary stStale
        (host_from_url (home_url_of srcStale.url)) srcStale).totalPosts = 1
    ∧ (crawl_blog siteDown 0 (some urlA) 5 srcStale stStale 9).source.lastChecked
      = some 9
    ∧ (crawl_blog siteDown 0 (some urlA) 5 srcStale stStale 9).err ≠ none := by
  refine ⟨by decide, by decide, by decide, by decide⟩

/-! ## Claim C9: idempotence of a repeated crawl -/

lemma upsert_post_refix (stX st0 : Storage) (n n2 : String) (s : Url)
    (t d : Option String) (p nx : Option Url)
    (hwfX : storageWF stX)
    (hlkEq : lookupPost stX s
      = lookupPost (upsert_post st0 n s t d p nx) s) :
    upsert_post stX n2 s t d p nx = stX := by
  rw [lookupPost_upsert_self st0 n s t d p nx] at hlkEq
  cases hls : lookupPost st0 s with
  | some r =>
    rw [hls] at hlkEq
    exact upsert_post_eq_self stX n2 s t d p nx _ hwfX hlkEq rfl rfl rfl rfl
  | none =>
    rw [hls] at hlkEq
    exact upsert_post_eq_self stX n2 s t d p nx _ hwfX hlkEq rfl rfl rfl rfl

lemma walkLoop_rerun_fixed (site : Site) (name : String) (maxPosts : Nat)
    (f f2 : Nat) (s : Url) (st0 : Storage)
    (hwf : storageWF st0)
    (hstop1 : (walkLoop site name maxPosts (f + 1) s [] st0 0).stop
      ≠ .outOfFuel)
    (herr1 : ((walkLoop site name maxPosts (f + 1) s [] st0 0).stop).isFetchErr
      = false) :
    (walkLoop site name maxPosts (f2 + 1) s []
        (walkLoop site name maxPosts (f + 1) s [] st0 0).storage 0).storage
      = (walkLoop site name maxPosts (f + 1) s [] st0 0).storage
    ∧ ((walkLoop site name maxPosts (f2 + 1) s []
        (walkLoop site name maxPosts (f + 1) s [] st0 0).storage 0).stop).isFetchErr
      = false := by
  cases hsite : site s with
  | none =>
    rw [walkLoop] at herr1
    simp only [List.not_mem_nil, if_neg, if_false] at herr1
    rw [hsite] at herr1
    simp [StopReason.isFetchErr] at herr1
  | some pg =>
    have hW1 : walkLoop site name maxPosts (f + 1) s [] st0 0
        = (if maxPosts ≠ 0 ∧ maxPosts ≤ 0 + 1 then
            ⟨upsert_post st0 name s pg.title pg.publishedAt pg.prevAbs
              pg.nextAbs, [] ++ [s], 0 + 1, .ceiling⟩
          else
            match pg.prevAbs with
            | none =>
              ⟨upsert_post st0 name s pg.title pg.publishedAt pg.prevAbs
                pg.nextAbs, [] ++ [s], 0 + 1, .noPrev⟩
            | some p =>
              if existsPost (upsert_post st0 name s pg.title pg.publishedAt
                  pg.prevAbs pg.nextAbs) p = true then
                ⟨upsert_post st0 name s pg.title pg.publishedAt pg.prevAbs
                  pg.nextAbs, [] ++ [s], 0 + 1, .knownPrev p⟩
              else
                walkLoop site name maxPosts f p ([] ++ [s])
                  (upsert_post st0 name s pg.title pg.publishedAt pg.prevAbs
                    pg.nextAbs) (0 + 1)) := by
      rw [walkLoop]
      simp only [List.not_mem_nil, if_neg, if_false, hsite]
    have hwf1 : storageWF
        (upsert_post st0 name s pg.title pg.publishedAt pg.prevAbs
          pg.nextAbs) :=
      storageWF_upsert st0 name s _ _ _ _ hwf
    by_cases hMP : maxPosts ≠ 0 ∧ maxPosts ≤ 0 + 1
    · rw [if_pos hMP] at hW1
      rw [hW1]
      simp only
      rw [walkLoop]
      simp only [List.not_mem_nil, if_neg, if_false, hsite]
      rw [upsert_post_refix _ st0 name name s pg.title pg.publishedAt
        pg.prevAbs pg.nextAbs hwf1 rfl]
      rw [if_pos hMP]
      exact ⟨rfl, rfl⟩
    · rw [if_neg hMP] at hW1
      cases hpv : pg.prevAbs with
      | none =>
        have hW1n : walkLoop site name maxPosts (f + 1) s [] st0 0
            = ⟨upsert_post st0 name s pg.title pg.publishedAt none
                pg.nextAbs, [] ++ [s], 0 + 1, .noPrev⟩ := by
          rw [hW1, hpv]
        rw [hW1n]
        simp only
        rw [walkLoop]
        simp only [List.not_mem_nil, if_neg, if_false, hsite]
        rw [hpv]
        dsimp only
        rw [upsert_post_refix _ st0 name name s pg.title pg.publishedAt
          none pg.nextAbs
          (by rw [← hpv]; exact hwf1)
          rfl]
        rw [if_neg hMP]
        exact ⟨rfl, rfl⟩
      | some p =>
        have hW1p : walkLoop site name maxPosts (f + 1) s [] st0 0
            = (if existsPost (upsert_post st0 name s pg.title pg.publishedAt
                  (some p) pg.nextAbs) p = true then
                ⟨upsert_post st0 name s pg.title pg.publishedAt (some p)
                  pg.nextAbs, [] ++ [s], 0 + 1, .knownPrev p⟩
              else
                walkLoop site name maxPosts f p ([] ++ [s])
                  (upsert_post st0 name s pg.title pg.publishedAt (some p)
                    pg.nextAbs) (0 + 1)) := by
          rw [hW1, hpv]
        by_cases hex : existsPost (upsert_post st0 name s pg.title
            pg.publishedAt (some p) pg.nextAbs) p = true
        · rw [if_pos hex] at hW1p
          rw [hW1p]
          simp only
          rw [walkLoop]
          simp only [List.not_mem_nil, if_neg, if_false, hsite]
          rw [hpv]
          dsimp only
          rw [upsert_post_refix _ st0 name name s pg.title pg.publishedAt
            (some p) pg.nextAbs
            (by rw [← hpv]; exact hwf1)
            rfl]
          rw [if_neg hMP, if_pos hex]
          exact ⟨rfl, rfl⟩
        · rw [if_neg hex] at hW1p
          rw [hW1p] at hstop1 herr1 ⊢
          have hs1 : existsPost
              (upsert_post st0 name s pg.title pg.publishedAt (some p)
                pg.nextAbs) s = true := by
            rw [existsPost_upsert]
            simp
          have hps : p ≠ s := by
            intro hc
            subst hc
            exact hex hs1
          have hlkW : lookupPost
              (walkLoop site name maxPosts f p ([] ++ [s])
                (upsert_post st0 name s pg.title pg.publishedAt (some p)
                  pg.nextAbs) (0 + 1)).storage s
              = lookupPost
                (upsert_post st0 name s pg.title pg.publishedAt (some p)
                  pg.nextAbs) s :=
            walkLoop_lookup_frozen site name maxPosts f p ([] ++ [s]) _
              (0 + 1) s hps hs1
          have hwfW : storageWF
              (walkLoop site name maxPosts f p ([] ++ [s])
                (upsert_post st0 name s pg.title pg.publishedAt (some p)
                  pg.nextAbs) (0 + 1)).storage :=
            walkLoop_WF site name maxPosts f p ([] ++ [s]) _ (0 + 1)
              (by rw [← hpv]; exact hwf1)
          have hpW : existsPost
              (walkLoop site name maxPosts f p ([] ++ [s])
                (upsert_post st0 name s pg.title pg.publishedAt (some p)
                  pg.nextAbs) (0 + 1)).storage p = true :=
            walkLoop_start_in_storage site name maxPosts f p ([] ++ [s]) _
              (0 + 1) (by simp [hps]) hstop1 herr1
          rw [walkLoop]
          simp only [List.not_mem_nil, if_neg, if_false, hsite]
          rw [hpv]
          dsimp only
          rw [upsert_post_refix _ st0 name name s pg.title pg.publishedAt
            (some p) pg.nextAbs hwfW hlkW]
          rw [if_neg hMP, if_pos hpW]
          exact ⟨rfl, rfl⟩

lemma mark_source_checked_name_url_summary (src : SourceRow) (b : Bool)
    (c n : Nat) :
    (mark_source_checked src b c n).name = src.name
    ∧ (mark_source_checked src b c n).url = src.url
    ∧ (mark_source_checked src b c n).totalPosts = src.totalPosts
    ∧ (mark_source_checked src b c n).firstPostDate = src.firstPostDate
    ∧ (mark_source_checked src b c n).lastPostDate = src.lastPostDate := by
  unfold mark_source_checked
  split <;> simp

lemma refresh_source_summary_fields (st : Storage) (host : String)
    (src : SourceRow) :
    (refresh_source_summary st host src).name = src.name
    ∧ (refresh_source_summary st host src).url = src.url
    ∧ (refresh_source_summary st host src).totalPosts
        = (st.filter (fun p => urlMatchesHost host p.1)).length
    ∧ (refresh_source_summary st host src).firstPostDate
        = (minStrOpt ((st.filter (fun p => urlMatchesHost host p.1)).filterMap
            (fun p => p.2.publishedAt))).map date10
    ∧ (refresh_source_summary st host src).lastPostDate
        = (maxStrOpt ((st.filter (fun p => urlMatchesHost host p.1)).filterMap
            (fun p => p.2.publishedAt))).map date10 := by
  unfold refresh_source_summary
  exact ⟨rfl, rfl, rfl, rfl, rfl⟩

/-- Claim C9: running the crawl twice in succession against the same site
(no new posts published between the runs, pages deterministic), with the
first run reaching a terminal state without a fatal fetch error, leaves the
BlogPost table and the Source summary (first/last post date, total posts)
identical after the second run to their state after the first run, and the
second run succeeds. -/
theorem crawl_twice_leaves_posts_and_summary_unchanged
    (site : Site) (maxPosts : Nat) (s : Url) (f1 f2 : Nat)
    (src : SourceRow) (st0 : Storage) (now1 now2 : Nat)
    (hwf : storageWF st0)
    (hstop1 : (walkLoop site src.name maxPosts (f1 + 1) s [] st0 0).stop
      ≠ .outOfFuel)
    (herr1 : ((walkLoop site src.name maxPosts (f1 + 1) s [] st0 0).stop).isFetchErr
      = false) :
    (crawl_blog site maxPosts (some s) (f2 + 1)
        (crawl_blog site maxPosts (some s) (f1 + 1) src st0 now1).source
        (crawl_blog site maxPosts (some s) (f1 + 1) src st0 now1).storage
        now2).storage
      = (crawl_blog site maxPosts (some s) (f1 + 1) src st0 now1).storage
    ∧ (crawl_blog site maxPosts (some s) (f2 + 1)
        (crawl_blog site maxPosts (some s) (f1 + 1) src st0 now1).source
        (crawl_blog site maxPosts (some s) (f1 + 1) src st0 now1).storage
        now2).source.totalPosts
      = (crawl_blog site maxPosts (some s) (f1 + 1) src st0 now1).source.totalPosts
    ∧ (crawl_blog site maxPosts (some s) (f2 + 1)
        (crawl_blog site maxPosts (some s) (f1 + 1) src st0 now1).source
        (crawl_blog site maxPosts (some s) (f1 + 1) src st0 now1).storage
        now2).source.firstPostDate
      = (crawl_blog site maxPosts (some s) (f1 + 1) src st0 now1).source.firstPostDate
    ∧ (crawl_blog site maxPosts (some s) (f2 + 1)
        (crawl_blog site maxPosts (some s) (f1 + 1) src st0 now1).source
        (crawl_blog site maxPosts (some s) (f1 + 1) src st0 now1).storage
        now2).source.lastPostDate
      = (crawl_blog site maxPosts (some s) (f1 + 1) src st0 now1).source.lastPostDate
    ∧ (crawl_blog site maxPosts (some s) (f2 + 1)
        (crawl_blog site maxPosts (some s) (f1 + 1) src st0 now1).source
        (crawl_blog site maxPosts (some s) (f1 + 1) src st0 now1).storage
        now2).err = none := by
  have heq1 := crawl_blog_success_eq site maxPosts s (f1 + 1) src st0 now1
    herr1
  have hst1 : (crawl_blog site maxPosts (some s) (f1 + 1) src st0 now1).storage
      = (walkLoop site src.name maxPosts (f1 + 1) s [] st0 0).storage := by
    rw [heq1]
  have hname1 : (crawl_blog site maxPosts (some s) (f1 + 1) src st0
      now1).source.name = src.name := by
    rw [heq1]
    simp only
    rw [(mark_source_checked_name_url_summary _ true 0 now1).1,
      (refresh_source_summary_fields _ _ src).1]
  have hurl1 : (crawl_blog site maxPosts (some s) (f1 + 1) src st0
      now1).source.url = src.url := by
    rw [heq1]
    simp only
    rw [(mark_source_checked_name_url_summary _ true 0 now1).2.1,
      (refresh_source_summary_fields _ _ src).2.1]
  have hrr := walkLoop_rerun_fixed site src.name maxPosts f1 f2 s st0 hwf
    hstop1 herr1
  have herr2 : ((walkLoop site
      (crawl_blog site maxPosts (some s) (f1 + 1) src st0 now1).source.name
      maxPosts (f2 + 1) s []
      (crawl_blog site maxPosts (some s) (f1 + 1) src st0 now1).storage
      0).stop).isFetchErr = false := by
    rw [hname1, hst1]
    exact hrr.2
  have heq2 := crawl_blog_success_eq site maxPosts s (f2 + 1)
    (crawl_blog site maxPosts (some s) (f1 + 1) src st0 now1).source
    (crawl_blog site maxPosts (some s) (f1 + 1) src st0 now1).storage now2
    herr2
  have hW2st : (walkLoop site
      (crawl_blog site maxPosts (some s) (f1 + 1) src st0 now1).source.name
      maxPosts (f2 + 1) s []
      (crawl_blog site maxPosts (some s) (f1 + 1) src st0 now1).storage
      0).storage
      = (walkLoop site src.name maxPosts (f1 + 1) s [] st0 0).storage := by
    rw [hname1, hst1]
    exact hrr.1
  refine ⟨?_, ?_, ?_, ?_, ?_⟩
  · rw [heq2]
    simp only
    rw [hW2st, hst1]
  · rw [heq2]
    simp only
    rw [(mark_source_checked_name_url_summary _ true 0 now2).2.2.1,
      (refresh_source_summary_fields _ _ _).2.2.1, hW2st, hurl1, heq1]
    simp only
    rw [(mark_source_checked_name_url_summary _ true 0 now1).2.2.1,
      (refresh_source_summary_fields _ _ src).2.2.1]
  · rw [heq2]
    simp only
    rw [(mark_source_checked_name_url_summary _ true 0 now2).2.2.2.1,
      (refresh_source_summary_fields _ _ _).2.2.2.1, hW2st, hurl1, heq1]
    simp only
    rw [(mark_source_checked_name_url_summary _ true 0 now1).2.2.2.1,
      (refresh_source_summary_fields _ _ src).2.2.2.1]
  · rw [heq2]
    simp only
    rw [(mark_source_checked_name_url_summary _ true 0 now2).2.2.2.2,
      (refresh_source_summary_fields _ _ _).2.2.2.2, hW2st, hurl1, heq1]
    simp only
    rw [(mark_source_checked_name_url_summary _ true 0 now1).2.2.2.2,
      (refresh_source_summary_fields _ _ src).2.2.2.2]
  · rw [heq2]

/-- Witness for the C9 theorem: two runs over the three-post chain starting
from empty storage; the second run leaves the table untouched. -/
theorem crawl_twice_unchanged_witness :
    (crawl_blog chainSite3 0 (some urlA) (0 + 1)
        (crawl_blog chainSite3 0 (some urlA) (4 + 1) srcT [] 1).source
        (crawl_blog chainSite3 0 (some urlA) (4 + 1) srcT [] 1).storage
        2).storage
      = (crawl_blog chainSite3 0 (some urlA) (4 + 1) srcT [] 1).storage :=
  (crawl_twice_leaves_posts_and_summary_unchanged chainSite3 0 urlA 4 0
    srcT [] 1 2 (by simp [storageWF, storageKeys]) (by decide) (by decide)).1

/-! ## Claim C6: navigation-link shape filtering -/

/-- Case-insensitive literal match (re.IGNORECASE): consume the pattern
(given lowercase) from the front of the input. -/
def stripLitCI : List Char → List Char → Option (List Char)
  | [], cs => some cs
  | _ :: _, [] => none
  | l :: ls, c :: cs => if c.toLower == l then stripLitCI ls cs else none

def takeDigitsN : Nat → List Char → Option (List Char)
  | 0, cs => some cs
  | _ + 1, [] => none
  | n + 1, c :: cs => if c.isDigit then takeDigitsN n cs else none

def expectCharCI (ch : Char) : List Char → Option (List Char)
  | [] => none
  | c :: cs => if c.toLower == ch then some cs else none

/-- Character class [a-z0-9-] under re.IGNORECASE. -/
def subdomainChar (c : Char) : Bool :=
  c.isDigit || c == '-'
    || (decide ('a' ≤ c.toLower) && decide (c.toLower ≤ 'z'))

/-- Embedding of POST_URL_REGEX (tools/legacy/crawl_blog.py line 25):
re.match of https://[a-z0-9-]+[.]blog.gov.uk/ then four digits, slash, two
digits, slash, two digits, slash, case-insensitively, anchored at the start
with anything allowed after. -/
def POST_URL_REGEX (s : String) : Bool :=
  (match stripLitCI "https://".toList s.toList with
   | none => none
   | some cs =>
     let sub := cs.takeWhile subdomainChar
     let rest := cs.dropWhile subdomainChar
     if sub.isEmpty then none
     else
       (stripLitCI ".blog.gov.uk/".toList rest).bind fun r1 =>
       (takeDigitsN 4 r1).bind fun r2 =>
       (expectCharCI '/' r2).bind fun r3 =>
       (takeDigitsN 2 r3).bind fun r4 =>
       (expectCharCI '/' r4).bind fun r5 =>
       (takeDigitsN 2 r5).bind fun r6 =>
       expectCharCI '/' r6).isSome

/-- Selector results of a post page that extract_prev_next
(tools/fetch_blogs_from_db.py) queries: for each selector of
PREV_LINK_SELECTORS and NEXT_LINK_SELECTORS in order, the href of its
select_one hit when that anchor has a truthy href (none otherwise); and the
anchors (text, href) of the window around a "share this page" marker, in
document order, when that marker occurs in the page (none otherwise). -/
structure NavSoup where
  prevSelHits : List (Option String)
  nextSelHits : List (Option String)
  shareWindowAnchors : Option (List (String × String))
deriving DecidableEq

def isPrefixL : List Char → List Char → Bool
  | [], _ => true
  | _ :: _, [] => false
  | a :: as, b :: bs => a == b && isPrefixL as bs

def containsSeq (pat : List Char) : List Char → Bool
  | [] => pat.isEmpty
  | c :: rest => isPrefixL pat (c :: rest) || containsSeq pat rest

/-- Python (a.get_text() or "").strip().lower() followed by a substring
test. -/
def txtHas (s : String) (pat : String) : Bool :=
  containsSeq pat.toList ((stripChars s.toList).map Char.toLower)

/-- The anchor scan of the share-this-page heuristic in extract_prev_next:
fill a missing prev from anchor text containing previous/older/left arrow,
a missing next from text containing next/newer/right arrow, stop once both
are set. -/
def shareScan : List (String × String) → Option String → Option String →
    Option String × Option String
  | [], prev, nxt => (prev, nxt)
  | (txt, href) :: rest, prev, nxt =>
    let prev2 := if prev.isNone &&
        (txtHas txt "previous" || txtHas txt "older" || txtHas txt "←")
      then some href else prev
    let nxt2 := if nxt.isNone &&
        (txtHas txt "next" || txtHas txt "newer" || txtHas txt "→")
      then some href else nxt
    if prev2.isSome && nxt2.isSome then (prev2, nxt2)
    else shareScan rest prev2 nxt2

/-- Embedding of extract_prev_next (tools/fetch_blogs_from_db.py lines
249-282): first hit of the conventional selectors for each direction, then,
if either is still missing and a share-this-page window exists, the textual
anchor heuristic. No URL-shape filter is applied to the result. -/
def extract_prev_next (soup : NavSoup) : Option String × Option String :=
  let prev := soup.prevSelHits.findSome? id
  let nxt := soup.nextSelHits.findSome? id
  if prev.isNone || nxt.isNone then
    match soup.shareWindowAnchors with
    | none => (prev, nxt)
    | some anchors => shareScan anchors prev nxt
  else (prev, nxt)

/-- Selector results of a post page that find_prev_next_urls
(tools/legacy/crawl_blog.py) queries. Hrefs are modelled after urljoin
against the current page URL (urljoin is Python stdlib, external to the
embedding): relPrevHref/relNextHref for rel=prev/rel=next anchors with a
truthy href, anchors as (text, href) for every a[href] in document order,
classPrevHref/classNextHref for the WordPress class selectors, and
navBlocks as the link-href lists of each detected navigation block. -/
structure LegacyNavSoup where
  relPrevHref : Option String
  relNextHref : Option String
  anchors : List (String × String)
  classPrevHref : Option String
  classNextHref : Option String
  navBlocks : List (List String)
deriving DecidableEq

def startsWithChar (s : String) (ch : Char) : Bool :=
  match stripChars s.toList with
  | c :: _ => c == ch
  | [] => false

def endsWithChar (s : String) (ch : Char) : Bool :=
  match (stripChars s.toList).getLast? with
  | some c => c == ch
  | none => false

/-- Strategy 4 of find_prev_next_urls: per navigation block, a missing prev
takes the block's first link, a missing next takes its last link when the
block has at least two, stopping once both are set. -/
def navBlockScan : List (List String) → Option String → Option String →
    Option String × Option String
  | [], p, n => (p, n)
  | links :: rest, p, n =>
    let p2 := match links, p with
      | l0 :: _, none => some l0
      | _, _ => p
    let n2 := match n with
      | some _ => n
      | none => if 2 ≤ links.length then links.getLast? else none
    if p2.isSome && n2.isSome then (p2, n2) else navBlockScan rest p2 n2

/-- The sanity filter at the end of find_prev_next_urls: a candidate that
does not match POST_URL_REGEX is discarded. -/
def sanitizeCandidate (o : Option String) : Option String :=
  match o with
  | some u => if POST_URL_REGEX u then some u else none
  | none => none

/-- Embedding of find_prev_next_urls (tools/legacy/crawl_blog.py lines
107-166): rel attributes, then arrow glyphs, then class conventions, then
nav blocks, then the POST_URL_REGEX sanity filter on both candidates. -/
def find_prev_next_urls (soup : LegacyNavSoup) :
    Option String × Option String :=
  let prev1 := soup.relPrevHref
  let next1 := soup.relNextHref
  let prev2 := match prev1 with
    | some _ => prev1
    | none =>
      (soup.anchors.find? (fun a => startsWithChar a.1 '←')).map Prod.snd
  let next2 := match next1 with
    | some _ => next1
    | none =>
      (soup.anchors.find? (fun a => endsWithChar a.1 '→')).map Prod.snd
  let prev3 := match prev2 with
    | some _ => prev2
    | none => soup.classPrevHref
  let next3 := match next2 with
    | some _ => next2
    | none => soup.classNextHref
  let pn := if prev3.isNone || next3.isNone then
      navBlockScan soup.navBlocks prev3 next3
    else (prev3, next3)
  (sanitizeCandidate pn.1, sanitizeCandidate pn.2)

lemma sanitizeCandidate_sound (o : Option String) (u : String)
    (h : sanitizeCandidate o = some u) : POST_URL_REGEX u = true := by
  cases o with
  | none => simp [sanitizeCandidate] at h
  | some v =>
    unfold sanitizeCandidate at h
    dsimp only at h
    by_cases hr : POST_URL_REGEX v = true
    · rw [if_pos hr] at h
      cases h
      exact hr
    · rw [if_neg hr] at h
      cases h

/-- Claim C6 (amended): only the legacy crawler filters navigation
candidates by URL shape. Its find_prev_next_urls discards any previous/next
candidate that does not match POST_URL_REGEX, so every candidate it returns
matches https with a blog.gov.uk subdomain host and a year/month/day path.
The DB-driven crawler's extract_prev_next applies no shape filter at all: a
rel=prev href pointing off-site is returned as the older link unchanged. -/
theorem legacy_nav_filtered_db_nav_unfiltered :
    (∀ (soup : LegacyNavSoup),
      (∀ u, (find_prev_next_urls soup).1 = some u →
        POST_URL_REGEX u = true)
      ∧ (∀ u, (find_prev_next_urls soup).2 = some u →
        POST_URL_REGEX u = true))
    ∧ extract_prev_next ⟨[some "https://example.com/about/"], [], none⟩
        = (some "https://example.com/about/", none)
    ∧ POST_URL_REGEX "https://example.com/about/" = false := by
  refine ⟨?_, by decide, by decide⟩
  intro soup
  constructor
  · intro u h
    exact sanitizeCandidate_sound _ u h
  · intro u h
    exact sanitizeCandidate_sound _ u h

/-- Witness for the amended C6 theorem: a rel=prev candidate that survives
the legacy filter matches the canonical shape. -/
theorem legacy_nav_filtered_witness :
    POST_URL_REGEX "https://gds.blog.gov.uk/2025/08/18/title/" = true :=
  (legacy_nav_filtered_db_nav_unfiltered.1
    ⟨some "https://gds.blog.gov.uk/2025/08/18/title/", none, [], none, none,
      []⟩).1
    "https://gds.blog.gov.uk/2025/08/18/title/" (by decide)

def badUrl : Url := "https://example.com/about/"

/-- A site whose latest post's extracted older link is the off-site
badUrl (as extract_prev_next returns it, unfiltered), and where that URL
also serves a page. -/
def siteOffsite : Site := fun u =>
  if u = urlA then some ⟨none, none, some badUrl, none⟩
  else if u = badUrl then some ⟨none, none, none, none⟩ else none

/-- Counterexample to claim C6: in the DB-driven crawler a candidate older
link whose URL has no year/month/day path segment is not discarded —
extract_prev_next returns it — and the walker then advances to it: the
off-site URL is fetched (appears in the visited list). The claim says every
such candidate is discarded and the walker never advances to a URL lacking
the canonical shape. -/
theorem db_walker_follows_unshaped_link :
    extract_prev_next ⟨[some badUrl], [], none⟩ = (some badUrl, none)
    ∧ POST_URL_REGEX badUrl = false
    ∧ badUrl ∈ (walkLoop siteOffsite "Test blog" 0 5 urlA [] [] 0).visited := by
  refine ⟨by decide, by decide, by decide⟩

/-! ## Claim C10: source selection gating -/

/-- One row of the Source table as list_sources reads it; lastCheckedDay is
DATE(last_checked) as a day number (none for NULL). -/
structure SourceRec where
  id : Nat
  name : String
  url : String
  kind : String
  isEnabled : Bool
  lastCheckedDay : Option Nat
deriving DecidableEq

def splitCharList (sep : Char) : List Char → List (List Char)
  | [] => [[]]
  | c :: cs =>
    let r := splitCharList sep cs
    if c == sep then [] :: r
    else
      match r with
      | [] => [[c]]
      | g :: gs => (c :: g) :: gs

/-- SUBSTRING_INDEX(SUBSTRING_INDEX(url, slash, 3), slash, -1): the third
slash-separated chunk of the URL, i.e. its host part. -/
def sqlHostOf (url : String) : String :=
  String.mk (((splitCharList '/' url.toList).take 3).getLastD [])

def lowerString (s : String) : String := String.mk (s.toList.map Char.toLower)

/-- The WHERE clause of list_sources (tools/fetch_blogs_from_db.py lines
327-342): kind Blog, enabled, the host equality filter when only_host is
given (compared against the lowered parameter), and the
checked-before-today gate only when neither force nor only_host is
given. -/
def sourceWherePred (onlyHost : Option String) (force : Bool) (today : Nat)
    (r : SourceRec) : Bool :=
  r.kind == "Blog" && r.isEnabled &&
  (match onlyHost with
   | some h => sqlHostOf r.url == lowerString h
   | none => true) &&
  (if !force && onlyHost.isNone then
     match r.lastCheckedDay with
     | none => true
     | some d => decide (d < today)
   else true)

def insertById (r : SourceRec) : List SourceRec → List SourceRec
  | [] => [r]
  | x :: xs => if r.id ≤ x.id then r :: x :: xs else x :: insertById r xs

/-- ORDER BY id, as a stable insertion sort. -/
def sortById : List SourceRec → List SourceRec
  | [] => []
  | x :: xs => insertById x (sortById xs)

/-- Embedding of list_sources (tools/fetch_blogs_from_db.py). -/
def list_sources (rows : List SourceRec) (onlyHost : Option String)
    (force : Bool) (today : Nat) : List SourceRec :=
  sortById (rows.filter (sourceWherePred onlyHost force today))

lemma mem_insertById (a r : SourceRec) (l : List SourceRec) :
    a ∈ insertById r l ↔ (a = r ∨ a ∈ l) := by
  induction l with
  | nil => simp [insertById]
  | cons x xs ih =>
    unfold insertById
    split
    · simp
    · simp only [List.mem_cons, ih]
      tauto

lemma mem_sortById (a : SourceRec) (l : List SourceRec) :
    a ∈ sortById l ↔ a ∈ l := by
  induction l with
  | nil => simp [sortById]
  | cons x xs ih =>
    unfold sortById
    rw [mem_insertById]
    simp [ih]

/-- Claim C10: the already-checked-today gate applies only when neither the
force flag nor a host filter is given. With a host filter the selection is
entirely independent of force and of today (so a source checked today is
still selected when it matches the host, kind and enabled conditions), while
without force and without a host filter a source checked today is never
selected. -/
theorem only_host_disables_checked_today_gate :
    (∀ (rows : List SourceRec) (h : String) (force force2 : Bool)
        (today today2 : Nat),
      list_sources rows (some h) force today
        = list_sources rows (some h) force2 today2)
    ∧ (∀ (rows : List SourceRec) (h : String) (today : Nat) (r : SourceRec),
        r ∈ rows → r.kind = "Blog" → r.isEnabled = true →
        sqlHostOf r.url = lowerString h → r.lastCheckedDay = some today →
        r ∈ list_sources rows (some h) false today)
    ∧ (∀ (rows : List SourceRec) (today : Nat) (r : SourceRec),
        r.lastCheckedDay = some today →
        r ∉ list_sources rows none false today) := by
  refine ⟨?_, ?_, ?_⟩
  · intro rows h force force2 today today2
    unfold list_sources
    congr 1
    apply List.filter_congr
    intro a _
    simp [sourceWherePred]
  · intro rows h today r hmem hkind hen hhost hday
    unfold list_sources
    rw [mem_sortById, List.mem_filter]
    refine ⟨hmem, ?_⟩
    simp [sourceWherePred, hkind, hen, hhost]
  · intro rows today r hday hc
    unfold list_sources at hc
    rw [mem_sortById, List.mem_filter] at hc
    have hp := hc.2
    simp [sourceWherePred, hday] at hp

/-- Witness for the C10 theorem: a source checked today is still selected
under a host filter without force. -/
theorem only_host_selects_checked_today_witness :
    (⟨3, "GDS blog", "https://gds.blog.gov.uk/", "Blog", true, some 100⟩
        : SourceRec)
      ∈ list_sources
          [⟨3, "GDS blog", "https://gds.blog.gov.uk/", "Blog", true,
            some 100⟩]
          (some "gds.blog.gov.uk") false 100 :=
  only_host_disables_checked_today_gate.2.1
    [⟨3, "GDS blog", "https://gds.blog.gov.uk/", "Blog", true, some 100⟩]
    "gds.blog.gov.uk" 100
    ⟨3, "GDS blog", "https://gds.blog.gov.uk/", "Blog", true, some 100⟩
    (by decide) rfl rfl (by decide) rfl
